import Mathlib

/-!
Verification development for the slang SystemVerilog front end.

The definitions below are a shallow embedding of the C++ sources:
  - source/binding/Expressions.cpp   (expression binder)
  - source/compilation/Compilation.cpp (compilation manager)
  - source/lexing/Lexer.cpp          (lexer)

The `Type` class itself (source/symbols/TypeSymbols.*) is not part of the
provided sources; its data model and predicates are modelled from the
specification (sections 3 and 4.3) and from the uses visible in
Compilation.cpp (scalar table, packed-array fabrication).
-/

set_option maxHeartbeats 1000000

namespace Slang

/-! ## Type model

Modelled from the spec: the `Type` variants of section 3 ("Type — interned;
identity by structural match ...") restricted to the variants the provided
sources exercise.  `TypeSymbols.cpp` is not under the provided sources; the
predicates below follow section 4.3 of the spec and the constructions in
`Compilation.cpp` (scalar table registration, `getType(width, flags)`).
Aliases, enums and struct/union types are not modelled; `isMatching` is
therefore structural equality.
-/

/-- The three integer scalar kinds (bit/logic/reg), as in the scalar table of
`Compilation::Compilation`. -/
inductive ScalarKind where
  | bit
  | logic
  | reg
deriving DecidableEq, Repr

/-- Predefined integer types (spec section 3). -/
inductive PredefinedKind where
  | byte
  | shortint
  | int
  | longint
  | integer
  | time
deriving DecidableEq, Repr

/-- Floating types (spec section 3). -/
inductive FloatingKind where
  | real
  | shortreal
  | realtime
deriving DecidableEq, Repr

/-- The `IntegralFlags` bitmask (Signed, FourState, Reg) used throughout
`binaryOperatorType` and `Compilation::getType`. -/
structure IntegralFlags where
  sign : Bool
  fourState : Bool
  reg : Bool
deriving DecidableEq, Repr

/-- Modelled from the spec: the type variants of section 3 that the provided
sources use.  A packed array always has a scalar element here, following the
spec's `isIntegral` ("any integer scalar or packed array of one") and
`Compilation::getType`, which only fabricates packed arrays over scalars. -/
inductive Ty where
  | error
  | void
  | null
  | chandle
  | string
  | event
  | scalar (kind : ScalarKind) (sign : Bool)
  | packedArray (elemKind : ScalarKind) (elemSign : Bool) (left : Int) (right : Int)
  | predefined (k : PredefinedKind)
  | floating (k : FloatingKind)
deriving DecidableEq, Repr

namespace Ty

/-- Bit width of a type.  Scalars are one bit; a packed array over range
`[left:right]` of a scalar has `|left - right| + 1` bits; predefined integer
and floating widths follow the HDL standard (spec sections 3 and 4.3). -/
def getBitWidth : Ty → Nat
  | scalar _ _ => 1
  | packedArray _ _ left right => (left - right).natAbs + 1
  | predefined .byte => 8
  | predefined .shortint => 16
  | predefined .int => 32
  | predefined .longint => 64
  | predefined .integer => 32
  | predefined .time => 64
  | floating .real => 64
  | floating .realtime => 64
  | floating .shortreal => 32
  | _ => 0

/-- Whether a scalar kind is four state (logic and reg are; bit is not). -/
def scalarFourState : ScalarKind → Bool
  | .bit => false
  | .logic => true
  | .reg => true

/-- Whether a scalar kind carries the Reg flag. -/
def scalarReg : ScalarKind → Bool
  | .bit => false
  | .logic => false
  | .reg => true

/-- The integral flags of a type (Signed / FourState / Reg).  Non-integral
types report an empty mask. -/
def getIntegralFlags : Ty → IntegralFlags
  | scalar kind sign => ⟨sign, scalarFourState kind, scalarReg kind⟩
  | packedArray kind sign _ _ => ⟨sign, scalarFourState kind, scalarReg kind⟩
  | predefined .byte => ⟨true, false, false⟩
  | predefined .shortint => ⟨true, false, false⟩
  | predefined .int => ⟨true, false, false⟩
  | predefined .longint => ⟨true, false, false⟩
  | predefined .integer => ⟨true, true, false⟩
  | predefined .time => ⟨false, true, false⟩
  | _ => ⟨false, false, false⟩

/-- `isIntegral` — any integer scalar or packed array of one, or a predefined
integer type (spec section 4.3). -/
def isIntegral : Ty → Bool
  | scalar _ _ => true
  | packedArray _ _ _ _ => true
  | predefined _ => true
  | _ => false

/-- `isFloating`. -/
def isFloating : Ty → Bool
  | floating _ => true
  | _ => false

/-- `isNumeric` — integral or floating. -/
def isNumeric (t : Ty) : Bool :=
  t.isIntegral || t.isFloating

/-- `isFourState` — whether the type's values carry X/Z bits. -/
def isFourState (t : Ty) : Bool :=
  t.getIntegralFlags.fourState

/-- `isScalar` — a single-bit integer scalar, not a 1-wide packed array. -/
def isScalar : Ty → Bool
  | scalar _ _ => true
  | _ => false

/-- `isMatching` — structurally identical including widths and flags.  With no
aliases in the model this is plain structural equality. -/
def isMatching (a b : Ty) : Bool :=
  a == b

/-- `isError`. -/
def isError : Ty → Bool
  | error => true
  | _ => false

/-- `isVoid`. -/
def isVoid : Ty → Bool
  | void => true
  | _ => false

/-- Modelled from the spec: `isEquivalent` is matching modulo aliases; without
aliases it coincides with `isMatching`. -/
def isEquivalent (a b : Ty) : Bool :=
  a.isMatching b

/-- Modelled from the spec: `isAssignmentCompatible(lhs, rhs)` holds for
numeric-to-numeric, `null` to chandle/string (classes are not modelled), and
equivalent types. -/
def isAssignmentCompatible (lhs rhs : Ty) : Bool :=
  (lhs.isNumeric && rhs.isNumeric) ||
  (rhs == .null && (lhs == .chandle || lhs == .string)) ||
  lhs.isEquivalent rhs

/-- Modelled from the spec: `isCastCompatible` is a superset of assignment
compatibility (adding, among others, integral/string casts). -/
def isCastCompatible (lhs rhs : Ty) : Bool :=
  lhs.isAssignmentCompatible rhs ||
  (lhs.isIntegral && rhs == .string) ||
  (lhs == .string && rhs.isIntegral)

end Ty

/-! ## Compilation type fabrication (Compilation.cpp lines 352-369)

`Compilation::getScalarType` looks the flags up in the scalar table populated
in the constructor; `Compilation::getType(width, flags)` fabricates a packed
array of that scalar over `[width-1:0]`.  The pure structural content is given
here; the interning cache itself is modelled separately below for the
interning claim. -/

/-- The scalar type registered in `scalarTypeTable` for a flags value.  Only
the six combinations registered in the constructor are reachable (Reg implies
FourState for every registered entry). -/
def getScalarType (flags : IntegralFlags) : Ty :=
  .scalar
    (if flags.reg then .reg else if flags.fourState then .logic else .bit)
    flags.sign

/-- The structural value of the packed-array type fabricated by
`Compilation::getType(width, flags)`: a packed array of the scalar for
`flags` over the range `[width-1:0]`. -/
def getType (width : Nat) (flags : IntegralFlags) : Ty :=
  .packedArray
    (if flags.reg then .reg else if flags.fourState then .logic else .bit)
    flags.sign
    ((width : Int) - 1)
    0

/-! ## binaryOperatorType (Expressions.cpp lines 16-65) -/

/-- `binaryOperatorType(compilation, lt, rt, forceFourState)` from
Expressions.cpp: result of an arithmetic binary operator.  If either operand
is non-numeric the result is the error type; if either is floating the result
is real (when either is a 64-bit float) or shortreal; otherwise the result is
integral with width `max`, Signed iff both signed, FourState iff forced or
either four state, Reg iff both reg, preserving scalar-ness for width-1
results and aliases passed in. -/
def binaryOperatorType (lt rt : Ty) (force : Bool) : Ty :=
  if !(lt.isNumeric && rt.isNumeric) then
    Ty.error
  else
    let result : Ty :=
      if lt.isFloating || rt.isFloating then
        if (lt.isFloating && lt.getBitWidth == 64) ||
           (rt.isFloating && rt.getBitWidth == 64) then
          Ty.floating .real
        else
          Ty.floating .shortreal
      else
        let width := max lt.getBitWidth rt.getBitWidth
        let lf := lt.getIntegralFlags
        let rf := rt.getIntegralFlags
        let flags : IntegralFlags :=
          { sign := lf.sign && rf.sign
            fourState := force || lf.fourState || rf.fourState
            reg := lf.reg && rf.reg }
        if width == 1 && (lt.isScalar || rt.isScalar) then
          getScalarType flags
        else
          getType width flags
    if lt.isMatching result then lt
    else if rt.isMatching result then rt
    else result

/-- `forceFourState(compilation, type)` from Expressions.cpp lines 67-73. -/
def forceFourState (t : Ty) : Ty :=
  if t.isFloating || t.isFourState then t
  else binaryOperatorType t t true

/-- `singleBitType(compilation, lt, rt)` from Expressions.cpp lines 75-79. -/
def singleBitType (lt rt : Ty) : Ty :=
  if lt.isFourState || rt.isFourState then .scalar .logic false
  else .scalar .bit false

/-- The result type computed by `ConditionalExpression::fromSyntax`
(Expressions.cpp line 720) for branch types `l` and `r`:
`binaryOperatorType(compilation, left.type, right.type, true)`. -/
def conditionalExpressionType (l r : Ty) : Ty :=
  binaryOperatorType l r true

/-! ## Structural facts about the type model -/

theorem Ty.isIntegral_not_floating {t : Ty} (h : t.isIntegral = true) :
    t.isFloating = false := by
  cases t <;> simp_all [Ty.isIntegral, Ty.isFloating]

theorem Ty.isIntegral_numeric {t : Ty} (h : t.isIntegral = true) :
    t.isNumeric = true := by
  simp [Ty.isNumeric, h]

theorem Ty.isIntegral_width_pos {t : Ty} (h : t.isIntegral = true) :
    1 ≤ t.getBitWidth := by
  cases t with
  | predefined k => cases k <;> simp [Ty.getBitWidth]
  | _ => simp_all [Ty.isIntegral, Ty.getBitWidth]

theorem Ty.isIntegral_reg_fourState {t : Ty} (h : t.isIntegral = true)
    (hreg : t.getIntegralFlags.reg = true) : t.getIntegralFlags.fourState = true := by
  cases t with
  | scalar k s => cases k <;> simp_all [Ty.getIntegralFlags, Ty.scalarReg, Ty.scalarFourState]
  | packedArray k s l r =>
      cases k <;> simp_all [Ty.getIntegralFlags, Ty.scalarReg, Ty.scalarFourState]
  | predefined k => cases k <;> simp_all [Ty.getIntegralFlags]
  | _ => simp_all [Ty.isIntegral]

theorem getType_getBitWidth (w : Nat) (flags : IntegralFlags) (hw : 1 ≤ w) :
    (getType w flags).getBitWidth = w := by
  simp only [getType, Ty.getBitWidth, Int.sub_zero]
  omega

theorem getType_getIntegralFlags (w : Nat) (flags : IntegralFlags)
    (h : flags.reg = true → flags.fourState = true) :
    (getType w flags).getIntegralFlags = flags := by
  rcases flags with ⟨s, f4, rg⟩
  cases rg <;> cases f4 <;>
    simp_all [getType, Ty.getIntegralFlags, Ty.scalarFourState, Ty.scalarReg]

theorem getType_isScalar (w : Nat) (flags : IntegralFlags) :
    (getType w flags).isScalar = false := by
  simp [getType, Ty.isScalar]

theorem getType_isFloating (w : Nat) (flags : IntegralFlags) :
    (getType w flags).isFloating = false := by
  simp [getType, Ty.isFloating]

theorem getType_isIntegral (w : Nat) (flags : IntegralFlags) :
    (getType w flags).isIntegral = true := by
  simp [getType, Ty.isIntegral]

theorem getScalarType_getBitWidth (flags : IntegralFlags) :
    (getScalarType flags).getBitWidth = 1 := by
  simp [getScalarType, Ty.getBitWidth]

theorem getScalarType_getIntegralFlags (flags : IntegralFlags)
    (h : flags.reg = true → flags.fourState = true) :
    (getScalarType flags).getIntegralFlags = flags := by
  rcases flags with ⟨s, f4, rg⟩
  cases rg <;> cases f4 <;>
    simp_all [getScalarType, Ty.getIntegralFlags, Ty.scalarFourState, Ty.scalarReg]

theorem getScalarType_isScalar (flags : IntegralFlags) :
    (getScalarType flags).isScalar = true := by
  simp [getScalarType, Ty.isScalar]

theorem getScalarType_isFloating (flags : IntegralFlags) :
    (getScalarType flags).isFloating = false := by
  simp [getScalarType, Ty.isFloating]

theorem getScalarType_isIntegral (flags : IntegralFlags) :
    (getScalarType flags).isIntegral = true := by
  simp [getScalarType, Ty.isIntegral]

/-- The alias-preservation step at the end of `binaryOperatorType` always
returns a value structurally equal to the computed result. -/
theorem aliasStep_eq (a b r : Ty) :
    (if a.isMatching r then a else if b.isMatching r then b else r) = r := by
  simp only [Ty.isMatching, beq_iff_eq]
  split
  · assumption
  · split
    · assumption
    · rfl

/-- Value-level normal form of `binaryOperatorType`: the alias-preservation
step never changes the structural value. -/
theorem binaryOperatorType_eq (lt rt : Ty) (force : Bool) :
    binaryOperatorType lt rt force =
      if !(lt.isNumeric && rt.isNumeric) then
        Ty.error
      else if lt.isFloating || rt.isFloating then
        if (lt.isFloating && lt.getBitWidth == 64) ||
           (rt.isFloating && rt.getBitWidth == 64) then
          Ty.floating .real
        else
          Ty.floating .shortreal
      else
        (if (max lt.getBitWidth rt.getBitWidth == 1) && (lt.isScalar || rt.isScalar) then
          getScalarType
            ⟨lt.getIntegralFlags.sign && rt.getIntegralFlags.sign,
             force || lt.getIntegralFlags.fourState || rt.getIntegralFlags.fourState,
             lt.getIntegralFlags.reg && rt.getIntegralFlags.reg⟩
        else
          getType (max lt.getBitWidth rt.getBitWidth)
            ⟨lt.getIntegralFlags.sign && rt.getIntegralFlags.sign,
             force || lt.getIntegralFlags.fourState || rt.getIntegralFlags.fourState,
             lt.getIntegralFlags.reg && rt.getIntegralFlags.reg⟩) := by
  unfold binaryOperatorType
  split
  · rfl
  · exact aliasStep_eq ..

/-- Claim C1: for every pair of integral types `lt` and `rt` and every boolean
`f`, the type returned by `binaryOperatorType(lt, rt, f)` has bit width
`max(width(lt), width(rt))`, is four-state iff `f` is true or `lt` is
four-state or `rt` is four-state, and is signed iff both `lt` and `rt` are
signed. -/
theorem binaryOperatorType_width_fourState_sign (lt rt : Ty)
    (hl : lt.isIntegral = true) (hr : rt.isIntegral = true) (f : Bool) :
    (binaryOperatorType lt rt f).getBitWidth = max lt.getBitWidth rt.getBitWidth ∧
    (binaryOperatorType lt rt f).isFourState = (f || lt.isFourState || rt.isFourState) ∧
    (binaryOperatorType lt rt f).getIntegralFlags.sign
      = (lt.getIntegralFlags.sign && rt.getIntegralFlags.sign) := by
  have hlf := Ty.isIntegral_not_floating hl
  have hrf := Ty.isIntegral_not_floating hr
  have hln := Ty.isIntegral_numeric hl
  have hrn := Ty.isIntegral_numeric hr
  have hflags : (⟨lt.getIntegralFlags.sign && rt.getIntegralFlags.sign,
      f || lt.getIntegralFlags.fourState || rt.getIntegralFlags.fourState,
      lt.getIntegralFlags.reg && rt.getIntegralFlags.reg⟩ : IntegralFlags).reg = true →
      (⟨lt.getIntegralFlags.sign && rt.getIntegralFlags.sign,
      f || lt.getIntegralFlags.fourState || rt.getIntegralFlags.fourState,
      lt.getIntegralFlags.reg && rt.getIntegralFlags.reg⟩ : IntegralFlags).fourState = true := by
    intro hrg
    simp only [Bool.and_eq_true] at hrg
    have := Ty.isIntegral_reg_fourState hl hrg.1
    simp [this]
  rw [binaryOperatorType_eq]
  simp only [hln, hrn, hlf, hrf, Bool.and_self, Bool.not_true, Bool.false_or,
    Bool.false_and, Bool.or_self, if_false, Bool.false_eq_true, ite_false]
  split
  · next hcond =>
    simp only [Bool.and_eq_true, beq_iff_eq] at hcond
    refine ⟨?_, ?_, ?_⟩
    · rw [getScalarType_getBitWidth, hcond.1]
    · rw [Ty.isFourState, getScalarType_getIntegralFlags _ hflags]
      simp [Ty.isFourState]
    · rw [getScalarType_getIntegralFlags _ hflags]
  · refine ⟨?_, ?_, ?_⟩
    · refine getType_getBitWidth _ _ ?_
      have := Ty.isIntegral_width_pos hl
      omega
    · rw [Ty.isFourState, getType_getIntegralFlags _ _ hflags]
      simp [Ty.isFourState]
    · rw [getType_getIntegralFlags _ _ hflags]

/-- Witness for the C1 theorem at concrete integral inputs: a 32-bit signed
four-state packed array and a 16-bit unsigned two-state packed array. -/
theorem binaryOperatorType_width_fourState_sign_witness :
    (getType 32 ⟨true, true, false⟩).isIntegral = true ∧
    (getType 16 ⟨false, false, false⟩).isIntegral = true ∧
    ((binaryOperatorType (getType 32 ⟨true, true, false⟩)
        (getType 16 ⟨false, false, false⟩) false).getBitWidth = 32 ∧
      (binaryOperatorType (getType 32 ⟨true, true, false⟩)
        (getType 16 ⟨false, false, false⟩) false).isFourState = true ∧
      (binaryOperatorType (getType 32 ⟨true, true, false⟩)
        (getType 16 ⟨false, false, false⟩) false).getIntegralFlags.sign = false) := by
  refine ⟨by decide, by decide, ?_⟩
  have h := binaryOperatorType_width_fourState_sign
    (getType 32 ⟨true, true, false⟩) (getType 16 ⟨false, false, false⟩)
    (by decide) (by decide) false
  refine ⟨?_, ?_, ?_⟩
  · rw [h.1]; decide
  · rw [h.2.1]; decide
  · rw [h.2.2]; decide

theorem Ty.numeric_not_floating_integral {t : Ty} (hn : t.isNumeric = true)
    (hf : t.isFloating = false) : t.isIntegral = true := by
  simpa [Ty.isNumeric, hf] using hn

theorem getScalarType_isFourState_true (s rg : Bool) :
    (getScalarType ⟨s, true, rg⟩).isFourState = true := by
  cases rg <;> simp [getScalarType, Ty.isFourState, Ty.getIntegralFlags, Ty.scalarFourState]

theorem getType_isFourState_true (w : Nat) (s rg : Bool) :
    (getType w ⟨s, true, rg⟩).isFourState = true := by
  cases rg <;> simp [getType, Ty.isFourState, Ty.getIntegralFlags, Ty.scalarFourState]

theorem forceFourState_getScalarType (s : Bool) :
    forceFourState (getScalarType ⟨s, false, false⟩) = getScalarType ⟨s, true, false⟩ := by
  cases s <;> decide

theorem forceFourState_getType (w : Nat) (s : Bool) (hw : 1 ≤ w) :
    forceFourState (getType w ⟨s, false, false⟩) = getType w ⟨s, true, false⟩ := by
  unfold forceFourState
  rw [getType_isFloating]
  have h4 : (getType w ⟨s, false, false⟩).isFourState = false := by
    cases s <;> simp [getType, Ty.isFourState, Ty.getIntegralFlags, Ty.scalarFourState]
  rw [h4]
  simp only [Bool.or_self, Bool.false_eq_true, if_false]
  rw [binaryOperatorType_eq]
  have hint := getType_isIntegral w (⟨s, false, false⟩ : IntegralFlags)
  have hnum := Ty.isIntegral_numeric hint
  have hfl := getType_isFloating w (⟨s, false, false⟩ : IntegralFlags)
  have hflags := getType_getIntegralFlags w (⟨s, false, false⟩ : IntegralFlags) (by simp)
  have hsc := getType_isScalar w (⟨s, false, false⟩ : IntegralFlags)
  have hbw := getType_getBitWidth w (⟨s, false, false⟩ : IntegralFlags) hw
  simp [hnum, hfl, hflags, hsc, hbw]

/-- Claim C8: for every conditional (ternary) expression with branch types `l`
and `r`, the result type equals `forceFourState(binaryOperatorType(l, r,
false))`; the binder computes it as `binaryOperatorType(l, r, true)`, which is
structurally the same type. -/
theorem conditionalExpressionType_eq_forceFourState (l r : Ty) :
    conditionalExpressionType l r = forceFourState (binaryOperatorType l r false) := by
  unfold conditionalExpressionType
  by_cases hnum : (l.isNumeric && r.isNumeric) = true
  · by_cases hfl : (l.isFloating || r.isFloating) = true
    · -- Either branch type is floating: the force flag is irrelevant and the
      -- result is itself floating, so forceFourState leaves it unchanged.
      have hsame : binaryOperatorType l r true = binaryOperatorType l r false := by
        rw [binaryOperatorType_eq, binaryOperatorType_eq]
        simp [hnum, hfl]
      have hflo : (binaryOperatorType l r false).isFloating = true := by
        rw [binaryOperatorType_eq]
        simp only [hnum, hfl, Bool.not_true, Bool.false_eq_true, if_false, if_true]
        split <;> rfl
      rw [hsame]
      unfold forceFourState
      rw [hflo]
      simp
    · -- Both branch types integral.
      have hfl' : l.isFloating = false ∧ r.isFloating = false := by
        constructor <;> simp_all
      obtain ⟨hlf, hrf⟩ := hfl'
      have hln : l.isNumeric = true := by
        have := hnum
        simp only [Bool.and_eq_true] at this
        exact this.1
      have hrn : r.isNumeric = true := by
        have := hnum
        simp only [Bool.and_eq_true] at this
        exact this.2
      have hl := Ty.numeric_not_floating_integral hln hlf
      have hr := Ty.numeric_not_floating_integral hrn hrf
      by_cases h4 : (l.getIntegralFlags.fourState || r.getIntegralFlags.fourState) = true
      · -- Already four-state: the force flag changes nothing, and
        -- forceFourState leaves a four-state result alone.
        have hsame : binaryOperatorType l r true = binaryOperatorType l r false := by
          rw [binaryOperatorType_eq, binaryOperatorType_eq]
          simp [hnum, hlf, hrf, h4]
        have hff : (binaryOperatorType l r false).isFourState = true := by
          rw [binaryOperatorType_eq]
          simp only [hnum, hlf, hrf, h4, Bool.not_true, Bool.or_self, Bool.false_eq_true,
            if_false, Bool.false_or]
          split
          · exact getScalarType_isFourState_true ..
          · exact getType_isFourState_true ..
        rw [hsame]
        unfold forceFourState
        rw [hff]
        simp
      · -- Two-state operands: forcing adds exactly the FourState flag.
        have h4' := Bool.eq_false_iff.mpr h4
        obtain ⟨hl4, hr4⟩ := Bool.or_eq_false_iff.mp h4'
        have hlreg : l.getIntegralFlags.reg = false := by
          rcases hb : l.getIntegralFlags.reg with _ | _
          · rfl
          · exact absurd (Ty.isIntegral_reg_fourState hl hb) (by simp [hl4])
        have hrreg : r.getIntegralFlags.reg = false := by
          rcases hb : r.getIntegralFlags.reg with _ | _
          · rfl
          · exact absurd (Ty.isIntegral_reg_fourState hr hb) (by simp [hr4])
        have hwpos : 1 ≤ max l.getBitWidth r.getBitWidth :=
          le_trans (Ty.isIntegral_width_pos hl) (le_max_left _ _)
        have h0 : binaryOperatorType l r false =
            if (max l.getBitWidth r.getBitWidth == 1) && (l.isScalar || r.isScalar) then
              getScalarType ⟨l.getIntegralFlags.sign && r.getIntegralFlags.sign, false, false⟩
            else
              getType (max l.getBitWidth r.getBitWidth)
                ⟨l.getIntegralFlags.sign && r.getIntegralFlags.sign, false, false⟩ := by
          rw [binaryOperatorType_eq]
          simp [hnum, hlf, hrf, hl4, hr4, hlreg, hrreg]
        have h1 : binaryOperatorType l r true =
            if (max l.getBitWidth r.getBitWidth == 1) && (l.isScalar || r.isScalar) then
              getScalarType ⟨l.getIntegralFlags.sign && r.getIntegralFlags.sign, true, false⟩
            else
              getType (max l.getBitWidth r.getBitWidth)
                ⟨l.getIntegralFlags.sign && r.getIntegralFlags.sign, true, false⟩ := by
          rw [binaryOperatorType_eq]
          simp [hnum, hlf, hrf, hl4, hr4, hlreg, hrreg]
        rw [h0, h1]
        by_cases hc : ((max l.getBitWidth r.getBitWidth == 1) && (l.isScalar || r.isScalar)) = true
        · rw [if_pos hc, if_pos hc, forceFourState_getScalarType]
        · rw [if_neg hc, if_neg hc, forceFourState_getType _ _ hwpos]
  · -- Non-numeric operands: both sides collapse to the error type.
    have h0 : binaryOperatorType l r false = Ty.error := by
      rw [binaryOperatorType_eq]
      simp [hnum]
    have h1 : binaryOperatorType l r true = Ty.error := by
      rw [binaryOperatorType_eq]
      simp [hnum]
    rw [h0, h1]
    decide

/-! ## Diagnostics -/

/-- The diagnostic codes used by the embedded fragments (Diagnostics.h is not
among the provided sources; the codes are those referenced by the provided
.cpp files). -/
inductive DiagCode where
  | ExpressionNotConstant
  | NotAValue
  | MemberAccessNotStructUnion
  | UnknownMember
  | NoImplicitConversion
  | BadAssignment
  | ExpressionNotAssignable
  | BadUnaryExpression
  | BadBinaryExpression
  | BadIndexExpression
  | CannotIndexScalar
  | IndexMustBeIntegral
  | BadConcatExpression
  | ValueExceedsMaxBitWidth
  | ReplicationZeroOutsideConcat
  | ValueMustNotBeUnknown
  | ValueMustBePositive
  | ExpectedExpression
  | ExpressionNotCallable
  | NotASubroutine
  | TooManyArguments
  | UnicodeBOM
  | EmbeddedNull
  | NonPrintableChar
  | UTF8Char
  | ExpectedClosingQuote
  | OctalEscapeCodeTooBig
  | InvalidHexEscapeCode
  | UnknownEscapeCode
  | EscapedWhitespace
  | UnterminatedBlockComment
  | NestedBlockComment
  | SplitBlockCommentInDirective
  | MisplacedDirectiveChar
  | IncludeNotFirstOnLine
  | ExpectedIncludeFileName
  | ExpectedIntegerBaseAfterSigned
  | MissingFractionalDigits
  | MissingExponentDigits
  | TooManyLexerErrors
  | BodyParamNoInitializer
  | LocalParamNoInitializer
deriving DecidableEq, Repr

/-! ## Expression model (Expressions.cpp / Expressions.h)

`ExpressionKind` and the expression node classes are declared in
Expressions.h, which is not among the provided sources; the kinds and the
per-kind operands are reconstructed from their uses in Expressions.cpp. -/

inductive ExpressionKind where
  | Invalid
  | IntegerLiteral
  | RealLiteral
  | UnbasedUnsizedIntegerLiteral
  | NullLiteral
  | StringLiteral
  | NamedValue
  | UnaryOp
  | BinaryOp
  | ConditionalOp
  | Assignment
  | Concatenation
  | Replication
  | ElementSelect
  | RangeSelect
  | MemberAccess
  | Call
  | Conversion
  | DataType
deriving DecidableEq, Repr

/-- Conversion kinds used by `Expression::convert` in the provided sources. -/
inductive ConversionKind where
  | implicitConv
  | intTruncation
deriving DecidableEq, Repr

/-- A model of `SVInt` constant integer values: width, two-state numeric
value, signedness flag and presence of unknown (X/Z) bits. -/
structure SVIntM where
  width : Nat
  value : Int
  signFlag : Bool
  unknown : Bool
deriving DecidableEq, Repr

/-- Bound expression nodes.  Each constructor carries the node's type and its
per-kind operands, following the `emplace<...Expression>` calls in
Expressions.cpp.  `invalid` is `InvalidExpression` (whose type is the error
type). -/
inductive Expr where
  | invalid (inner : Option Expr)
  | integerLiteral (t : Ty) (value : SVIntM)
  | realLiteral (t : Ty)
  | unbasedUnsizedLiteral (t : Ty)
  | nullLiteral (t : Ty)
  | stringLiteral (t : Ty)
  | namedValue (t : Ty)
  | unary (t : Ty) (operand : Expr)
  | binary (t : Ty) (lhs rhs : Expr)
  | conditional (t : Ty) (pred lhs rhs : Expr)
  | assignment (t : Ty) (lhs rhs : Expr)
  | concatenation (t : Ty) (operands : List Expr)
  | replication (t : Ty) (count : Expr) (inner : Expr)
  | elementSelect (t : Ty) (value selector : Expr)
  | rangeSelect (t : Ty) (value left right : Expr)
  | memberAccess (t : Ty) (value : Expr)
  | call (t : Ty) (args : List Expr)
  | conversion (ck : ConversionKind) (t : Ty) (operand : Expr)
  | dataType (t : Ty)

namespace Expr

/-- The expression's kind tag. -/
def kind : Expr → ExpressionKind
  | invalid _ => .Invalid
  | integerLiteral _ _ => .IntegerLiteral
  | realLiteral _ => .RealLiteral
  | unbasedUnsizedLiteral _ => .UnbasedUnsizedIntegerLiteral
  | nullLiteral _ => .NullLiteral
  | stringLiteral _ => .StringLiteral
  | namedValue _ => .NamedValue
  | unary _ _ => .UnaryOp
  | binary _ _ _ => .BinaryOp
  | conditional _ _ _ _ => .ConditionalOp
  | assignment _ _ _ => .Assignment
  | concatenation _ _ => .Concatenation
  | replication _ _ _ => .Replication
  | elementSelect _ _ _ => .ElementSelect
  | rangeSelect _ _ _ _ => .RangeSelect
  | memberAccess _ _ => .MemberAccess
  | call _ _ => .Call
  | conversion _ _ _ => .Conversion
  | dataType _ => .DataType

/-- The expression's type.  `InvalidExpression::Instance` carries
`ErrorType::Instance`. -/
def type : Expr → Ty
  | invalid _ => .error
  | integerLiteral t _ => t
  | realLiteral t => t
  | unbasedUnsizedLiteral t => t
  | nullLiteral t => t
  | stringLiteral t => t
  | namedValue t => t
  | unary t _ => t
  | binary t _ _ => t
  | conditional t _ _ _ => t
  | assignment t _ _ => t
  | concatenation t _ => t
  | replication t _ _ => t
  | elementSelect t _ _ => t
  | rangeSelect t _ _ _ => t
  | memberAccess t _ => t
  | call t _ => t
  | conversion _ t _ => t
  | dataType t => t

/-- `Expression::bad` (Expressions.cpp lines 119-121). -/
def bad (e : Expr) : Bool :=
  e.kind == .Invalid || e.type.isError

/-- `Expression::isLValue` (Expressions.cpp lines 123-133). -/
def isLValue (e : Expr) : Bool :=
  match e.kind with
  | .NamedValue => true
  | .ElementSelect => true
  | .RangeSelect => true
  | .MemberAccess => true
  | _ => false

/-- The folded constant attached to an expression.  In the provided sources
only integer literals reach the `left.constant` check of
`ReplicationExpression::fromSyntax`; the literal's value is its constant. -/
def constant : Expr → Option SVIntM
  | integerLiteral _ v => some v
  | _ => none

end Expr

/-- Claim C5: the lvalue predicate holds exactly when the expression's kind is
named-value, element-select, range-select, or member-access; in particular a
literal or arithmetic expression is never an lvalue. -/
theorem isLValue_iff_kind (e : Expr) :
    (e.isLValue = true ↔
      (e.kind = .NamedValue ∨ e.kind = .ElementSelect ∨
       e.kind = .RangeSelect ∨ e.kind = .MemberAccess)) ∧
    ((e.kind = .IntegerLiteral ∨ e.kind = .RealLiteral ∨
      e.kind = .UnbasedUnsizedIntegerLiteral ∨ e.kind = .StringLiteral ∨
      e.kind = .NullLiteral ∨ e.kind = .UnaryOp ∨ e.kind = .BinaryOp) →
      e.isLValue = false) := by
  cases e <;> simp [Expr.isLValue, Expr.kind]

/-! ## Assignment conversion (Expressions.cpp lines 356-392) -/

/-- `Expression::badExpr` (lines 390-392): wrap in an `InvalidExpression`
carrying the error type. -/
def badExpr (e : Option Expr) : Expr :=
  .invalid e

/-- `Expression::convert` (lines 356-359). -/
def convert (ck : ConversionKind) (t : Ty) (e : Expr) : Expr :=
  .conversion ck t e

/-- Modelled from the spec: `Expression::contextDetermined` (declared in
Expressions.h, not among the provided sources) propagates a parent-determined
type into a subexpression, inserting an implicit conversion node when the
subexpression's type does not already match (spec section 4.4, phase 2). -/
def contextDetermined (t : Ty) (e : Expr) : Expr :=
  if e.type.isMatching t then e else .conversion .implicitConv t e

/-- `Expression::convertAssignment` (Expressions.cpp lines 361-388), with the
local `rt` updates inlined: incompatible types produce `BadAssignment` (or
`NoImplicitConversion` when cast-compatible) and a bad expression; otherwise
the expression is widened by context-determined propagation to
`binaryOperatorType(type, rt, false)` and truncated back to `type` when the
widened width exceeds the target width. -/
def convertAssignment (type : Ty) (e : Expr) (diags : List DiagCode) :
    Expr × List DiagCode :=
  if !(type.isAssignmentCompatible e.type) then
    (badExpr (some e),
     diags ++ [if type.isCastCompatible e.type then DiagCode.NoImplicitConversion
               else DiagCode.BadAssignment])
  else if (binaryOperatorType type e.type false).getBitWidth > type.getBitWidth then
    (convert .intTruncation type (contextDetermined (binaryOperatorType type e.type false) e),
     diags)
  else
    (contextDetermined (binaryOperatorType type e.type false) e, diags)

/-- Claim C2: an assignment conversion to an incompatible target emits
`BadAssignment` (or `NoImplicitConversion` when cast-compatible) and yields a
bad expression; otherwise the expression is widened via
`binaryOperatorType(T, type(e), false)` and exactly one truncation conversion
to `T` is inserted when the widened width exceeds `width(T)`.  In particular
a 16-bit unsigned right-hand side bound to an 8-bit unsigned target gets one
truncation conversion with result type 8-bit unsigned and no diagnostic. -/
theorem convertAssignment_spec (type : Ty) (e : Expr) (diags : List DiagCode) :
    (type.isAssignmentCompatible e.type = false →
      convertAssignment type e diags =
        (badExpr (some e),
         diags ++ [if type.isCastCompatible e.type then DiagCode.NoImplicitConversion
                   else DiagCode.BadAssignment]) ∧
      ((convertAssignment type e diags).1).bad = true) ∧
    (type.isAssignmentCompatible e.type = true →
      (convertAssignment type e diags).2 = diags ∧
      ((binaryOperatorType type e.type false).getBitWidth > type.getBitWidth →
        (convertAssignment type e diags).1 =
          Expr.conversion .intTruncation type
            (contextDetermined (binaryOperatorType type e.type false) e) ∧
        ((convertAssignment type e diags).1).type = type) ∧
      (¬ (binaryOperatorType type e.type false).getBitWidth > type.getBitWidth →
        (convertAssignment type e diags).1 =
          contextDetermined (binaryOperatorType type e.type false) e)) ∧
    (convertAssignment (getType 8 ⟨false, false, false⟩)
        (Expr.namedValue (getType 16 ⟨false, false, false⟩)) [] =
      (Expr.conversion .intTruncation (getType 8 ⟨false, false, false⟩)
        (Expr.namedValue (getType 16 ⟨false, false, false⟩)), [])) := by
  refine ⟨?_, ?_, ?_⟩
  · intro h
    unfold convertAssignment
    simp [h, badExpr, Expr.bad, Expr.kind]
  · intro h
    unfold convertAssignment
    simp only [h, Bool.not_true, Bool.false_eq_true, if_false]
    by_cases hgt : (binaryOperatorType type e.type false).getBitWidth > type.getBitWidth
    · rw [if_pos hgt]
      refine ⟨rfl, fun _ => ⟨rfl, rfl⟩, fun hx => absurd hgt hx⟩
    · rw [if_neg hgt]
      exact ⟨rfl, fun hx => absurd hx hgt, fun _ => rfl⟩
  · rfl

/-- Witness for the C2 theorem: the incompatible case at an event target and
an int right-hand side (`BadAssignment`), and the compatible 16-to-8-bit
unsigned case taking exactly one truncation. -/
theorem convertAssignment_spec_witness :
    ((Ty.event).isAssignmentCompatible (Expr.namedValue (.predefined .int)).type = false ∧
      convertAssignment .event (Expr.namedValue (.predefined .int)) [] =
        (badExpr (some (Expr.namedValue (.predefined .int))), [DiagCode.BadAssignment])) ∧
    ((getType 8 ⟨false, false, false⟩).isAssignmentCompatible
        (Expr.namedValue (getType 16 ⟨false, false, false⟩)).type = true ∧
      (convertAssignment (getType 8 ⟨false, false, false⟩)
          (Expr.namedValue (getType 16 ⟨false, false, false⟩)) []).2 = []) := by
  constructor
  · refine ⟨by decide, ?_⟩
    have h := (convertAssignment_spec .event (Expr.namedValue (.predefined .int)) []).1
      (by decide)
    rw [h.1]
    rfl
  · refine ⟨by decide, ?_⟩
    have h := (convertAssignment_spec (getType 8 ⟨false, false, false⟩)
      (Expr.namedValue (getType 16 ⟨false, false, false⟩)) []).2.1 (by decide)
    exact h.1

/-! ## Binder fragment: concatenation and replication

The recursive binder below embeds `Expression::create` (restricted to the
syntax kinds needed), `ConcatenationExpression::fromSyntax` and
`ReplicationExpression::fromSyntax` from Expressions.cpp, threading the
compilation's diagnostics list explicitly.  `Expression::selfDetermined`
(declared in Expressions.h, not among the provided sources) is modelled from
the spec as creation followed by the self-determined propagation phase, which
leaves the created node unchanged; calls to it therefore appear as `create`
calls below. -/

/-- The two `BindFlags` bits exercised by the embedded fragment (BindContext
is not among the provided sources). -/
structure BindFlags where
  insideConcatenation : Bool
  integralConstant : Bool
deriving DecidableEq, Repr

/-- Modelled from the spec: `BindContext::resetFlags` adds the extra flags
passed to `Expression::create` to the context used for the subtree. -/
def resetFlags (ctx extra : BindFlags) : BindFlags :=
  ⟨ctx.insideConcatenation || extra.insideConcatenation,
   ctx.integralConstant || extra.integralConstant⟩

/-- No extra bind flags. -/
def noFlags : BindFlags := ⟨false, false⟩

/-- `BindFlags::InsideConcatenation`. -/
def insideConcatFlag : BindFlags := ⟨true, false⟩

/-- `BindFlags::IntegralConstant`. -/
def integralConstantFlag : BindFlags := ⟨false, true⟩

/-- Expression syntax nodes for the embedded binder fragment:
`IntegerLiteralExpression`, `ConcatenationExpression` and
`MultipleConcatenationExpression`. -/
inductive ExprStx where
  | integerLiteral (value : Int)
  | concatenationExpr (operands : List ExprStx)
  | multipleConcat (count : ExprStx) (inner : ExprStx)

/-- Whether a syntax node is a `MultipleConcatenationExpression` (the check at
Expressions.cpp lines 840 and 852). -/
def isMultipleConcatStx : ExprStx → Bool
  | .multipleConcat _ _ => true
  | _ => false

/-- `Compilation::checkNoUnknowns` (Compilation.cpp lines 395-401). -/
def checkNoUnknowns (v : SVIntM) (diags : List DiagCode) : Bool × List DiagCode :=
  if v.unknown then (false, diags ++ [DiagCode.ValueMustNotBeUnknown])
  else (true, diags)

/-- `Compilation::checkPositive` (Compilation.cpp lines 403-409). -/
def checkPositive (v : SVIntM) (diags : List DiagCode) : Bool × List DiagCode :=
  if v.signFlag && decide (v.value < 0) then (false, diags ++ [DiagCode.ValueMustBePositive])
  else (true, diags)

/-- `Compilation::checkValidBitWidth` (Compilation.cpp lines 411-416):
`value.as<bitwidth_t>()` succeeds iff the value fits an unsigned 32-bit
quantity. -/
def checkValidBitWidth (v : Int) (diags : List DiagCode) : Option Nat × List DiagCode :=
  if 0 ≤ v ∧ v < 2 ^ 32 then (some v.toNat, diags)
  else (none, diags ++ [DiagCode.ValueExceedsMaxBitWidth])

mutual

/-- `Expression::create` (Expressions.cpp lines 135-256), restricted to the
kinds of the embedded syntax fragment, with the bodies of
`ConcatenationExpression::fromSyntax` and `ReplicationExpression::fromSyntax`
(which it dispatches to) inlined; the named wrappers below restate them and
agree definitionally.  An integer literal binds via
`IntegerLiteral::fromSyntax` (lines 416-423) to the `int` type carrying a
32-bit signed value. -/
def create : ExprStx → BindFlags → BindFlags → List DiagCode → Expr × List DiagCode
  | .integerLiteral v, _, _, diags =>
      (.integerLiteral (.predefined .int) ⟨32, v, true, false⟩, diags)
  | .concatenationExpr args, ctx, extra, diags =>
      -- ConcatenationExpression::fromSyntax (lines 827-881): run the
      -- argument loop, then produce either a bad expression (wrapping a
      -- concatenation with the error type) or a concatenation typed
      -- getType(totalWidth, flags).
      (match concatLoop args (resetFlags ctx extra) false ⟨false, false, false⟩ 0 [] diags with
       | (true, _, _, _, diags) =>
           (badExpr (some (.concatenation .error [])), diags)
       | (false, flags, totalWidth, buffer, diags) =>
           (.concatenation (getType totalWidth flags) buffer, diags))
  | .multipleConcat cntStx innerStx, ctx, extra, diags =>
      -- ReplicationExpression::fromSyntax (lines 883-919): the count binds
      -- with IntegralConstant; a missing constant, unknown bits or a
      -- negative value are bad; a zero count is ReplicationZeroOutsideConcat
      -- outside a concatenation and the void placeholder inside one;
      -- otherwise the type is getType(count * width(inner), two/four-state).
      let context := resetFlags ctx extra
      let boundL := create cntStx context integralConstantFlag diags
      let left := boundL.1
      let boundR := create innerStx context noFlags boundL.2
      let right := boundR.1
      let diags := boundR.2
      if left.bad || right.bad || left.constant.isNone then
        (badExpr (some (.replication .error left right)), diags)
      else
        match left.constant with
        | none => (badExpr (some (.replication .error left right)), diags)
        | some value =>
          match checkNoUnknowns value diags with
          | (false, diags) => (badExpr (some (.replication .error left right)), diags)
          | (true, diags) =>
            match checkPositive value diags with
            | (false, diags) => (badExpr (some (.replication .error left right)), diags)
            | (true, diags) =>
              if value.value == 0 then
                if !context.insideConcatenation then
                  (badExpr (some (.replication .error left right)),
                   diags ++ [DiagCode.ReplicationZeroOutsideConcat])
                else
                  (.replication .void left right, diags)
              else
                match checkValidBitWidth (value.value * (right.type.getBitWidth : Int)) diags with
                | (none, diags) => (badExpr (some (.replication .error left right)), diags)
                | (some w, diags) =>
                  (.replication
                    (getType w (if right.type.isFourState then ⟨false, true, false⟩
                                else ⟨false, false, false⟩))
                    left right, diags)

/-- The argument loop of `ConcatenationExpression::fromSyntax` (lines
835-871): each argument binds self-determined (replications get the
`InsideConcatenation` flag); a bad argument or a width overflow breaks with
`errored`; a void-typed replication is skipped; a non-integral argument emits
`BadConcatExpression` and continues; otherwise the width accumulates (as a
32-bit quantity) and FourState is made sticky. -/
def concatLoop : List ExprStx → BindFlags → Bool → IntegralFlags → Nat → List Expr →
    List DiagCode → Bool × IntegralFlags × Nat × List Expr × List DiagCode
  | [], _, errored, flags, totalWidth, buffer, diags =>
      (errored, flags, totalWidth, buffer, diags)
  | argStx :: rest, context, errored, flags, totalWidth, buffer, diags =>
    let bound :=
      create argStx context
        (if isMultipleConcatStx argStx then insideConcatFlag else noFlags) diags
    let arg := bound.1
    let diags := bound.2
    let buffer := buffer ++ [arg]
    if arg.bad then
      (true, flags, totalWidth, buffer, diags)
    else if arg.type.isVoid && isMultipleConcatStx argStx then
      concatLoop rest context errored flags totalWidth buffer diags
    else if !arg.type.isIntegral then
      concatLoop rest context true flags totalWidth buffer
        (diags ++ [DiagCode.BadConcatExpression])
    else
      let newWidth := (totalWidth + arg.type.getBitWidth) % 2 ^ 32
      if newWidth < totalWidth then
        (true, flags, totalWidth, buffer, diags ++ [DiagCode.ValueExceedsMaxBitWidth])
      else
        concatLoop rest context errored
          (if arg.type.isFourState then { flags with fourState := true } else flags)
          newWidth buffer diags

end

/-- `ConcatenationExpression::fromSyntax` (Expressions.cpp lines 827-881) as
a named wrapper; `create` on a concatenation agrees with it definitionally
(see `create_concatenationExpr`). -/
def concatenationFromStx (args : List ExprStx) (context : BindFlags)
    (diags : List DiagCode) : Expr × List DiagCode :=
  match concatLoop args context false ⟨false, false, false⟩ 0 [] diags with
  | (true, _, _, _, diags) =>
      (badExpr (some (.concatenation .error [])), diags)
  | (false, flags, totalWidth, buffer, diags) =>
      (.concatenation (getType totalWidth flags) buffer, diags)

/-- `ReplicationExpression::fromSyntax` (Expressions.cpp lines 883-919) as a
named wrapper; `create` on a multiple concatenation agrees with it
definitionally (see `create_multipleConcat`). -/
def replicationFromStx (cntStx innerStx : ExprStx) (context : BindFlags)
    (diags : List DiagCode) : Expr × List DiagCode :=
  let boundL := create cntStx context integralConstantFlag diags
  let left := boundL.1
  let boundR := create innerStx context noFlags boundL.2
  let right := boundR.1
  let diags := boundR.2
  if left.bad || right.bad || left.constant.isNone then
    (badExpr (some (.replication .error left right)), diags)
  else
    match left.constant with
    | none => (badExpr (some (.replication .error left right)), diags)
    | some value =>
      match checkNoUnknowns value diags with
      | (false, diags) => (badExpr (some (.replication .error left right)), diags)
      | (true, diags) =>
        match checkPositive value diags with
        | (false, diags) => (badExpr (some (.replication .error left right)), diags)
        | (true, diags) =>
          if value.value == 0 then
            if !context.insideConcatenation then
              (badExpr (some (.replication .error left right)),
               diags ++ [DiagCode.ReplicationZeroOutsideConcat])
            else
              (.replication .void left right, diags)
          else
            match checkValidBitWidth (value.value * (right.type.getBitWidth : Int)) diags with
            | (none, diags) => (badExpr (some (.replication .error left right)), diags)
            | (some w, diags) =>
              (.replication
                (getType w (if right.type.isFourState then ⟨false, true, false⟩
                            else ⟨false, false, false⟩))
                left right, diags)

theorem create_concatenationExpr (args : List ExprStx) (ctx extra : BindFlags)
    (diags : List DiagCode) :
    create (.concatenationExpr args) ctx extra diags =
      concatenationFromStx args (resetFlags ctx extra) diags := rfl

theorem create_multipleConcat (cntStx innerStx : ExprStx) (ctx extra : BindFlags)
    (diags : List DiagCode) :
    create (.multipleConcat cntStx innerStx) ctx extra diags =
      replicationFromStx cntStx innerStx (resetFlags ctx extra) diags := rfl

theorem resetFlags_noFlags (ctx : BindFlags) : resetFlags ctx noFlags = ctx := by
  cases ctx
  simp [resetFlags, noFlags]

/-- The components of a concatenation-loop result that determine the bound
concatenation's type and diagnostics: `errored`, the flags, the summed width
and the diagnostics (everything except the argument buffer). -/
def concatOutcome (r : Bool × IntegralFlags × Nat × List Expr × List DiagCode) :
    Bool × IntegralFlags × Nat × List DiagCode :=
  (r.1, r.2.1, r.2.2.1, r.2.2.2.2)

/-- The concatenation loop's outcome does not depend on the accumulated
argument buffer. -/
theorem concatLoop_buffer_irrelevant (args : List ExprStx) (context : BindFlags)
    (errored : Bool) (flags : IntegralFlags) (w : Nat) (buf1 buf2 : List Expr)
    (d : List DiagCode) :
    concatOutcome (concatLoop args context errored flags w buf1 d) =
    concatOutcome (concatLoop args context errored flags w buf2 d) := by
  induction args generalizing errored flags w buf1 buf2 d with
  | nil =>
    rw [concatLoop, concatLoop]
    rfl
  | cons a rest ih =>
    rw [concatLoop, concatLoop]
    simp only []
    repeat' split
    all_goals first | rfl | exact ih ..

theorem Expr.constant_integerLiteral (t : Ty) (v : SVIntM) :
    (Expr.integerLiteral t v).constant = some v := rfl

/-- Binding `{0{x}}` in a context with the `InsideConcatenation` flag yields
the void-placeholder replication and no diagnostic. -/
theorem replicationFromStx_zero_inside (m : Int) (context : BindFlags)
    (d : List DiagCode) (h : context.insideConcatenation = true) :
    replicationFromStx (.integerLiteral 0) (.integerLiteral m) context d =
      (.replication .void
        (.integerLiteral (.predefined .int) ⟨32, 0, true, false⟩)
        (.integerLiteral (.predefined .int) ⟨32, m, true, false⟩), d) := by
  obtain ⟨ic, iconst⟩ := context
  simp only at h
  subst h
  rfl

/-- Binding `{0{x}}` in a context without the `InsideConcatenation` flag emits
`ReplicationZeroOutsideConcat` and yields a bad expression. -/
theorem replicationFromStx_zero_outside (m : Int) (context : BindFlags)
    (d : List DiagCode) (h : context.insideConcatenation = false) :
    replicationFromStx (.integerLiteral 0) (.integerLiteral m) context d =
      (badExpr (some (.replication .error
        (.integerLiteral (.predefined .int) ⟨32, 0, true, false⟩)
        (.integerLiteral (.predefined .int) ⟨32, m, true, false⟩))),
       d ++ [DiagCode.ReplicationZeroOutsideConcat]) := by
  obtain ⟨ic, iconst⟩ := context
  simp only at h
  subst h
  rfl

/-- Inside the concatenation loop a zero-count replication binds to the void
placeholder and is skipped: removing it changes neither `errored`, the flags,
the summed width, nor the diagnostics. -/
theorem concatLoop_skip_zero_replication (xs zs : List ExprStx) (m : Int)
    (context : BindFlags) (errored : Bool) (flags : IntegralFlags) (w : Nat)
    (buf1 buf2 : List Expr) (d : List DiagCode) :
    concatOutcome (concatLoop
        (xs ++ .multipleConcat (.integerLiteral 0) (.integerLiteral m) :: zs)
        context errored flags w buf1 d) =
    concatOutcome (concatLoop (xs ++ zs) context errored flags w buf2 d) := by
  induction xs generalizing errored flags w buf1 buf2 d with
  | nil =>
    obtain ⟨ic, iconst⟩ := context
    cases ic
    · exact concatLoop_buffer_irrelevant zs ⟨false, iconst⟩ errored flags w
        (buf1 ++ [Expr.replication .void
          (.integerLiteral (.predefined .int) ⟨32, 0, true, false⟩)
          (.integerLiteral (.predefined .int) ⟨32, m, true, false⟩)]) buf2 d
    · exact concatLoop_buffer_irrelevant zs ⟨true, iconst⟩ errored flags w
        (buf1 ++ [Expr.replication .void
          (.integerLiteral (.predefined .int) ⟨32, 0, true, false⟩)
          (.integerLiteral (.predefined .int) ⟨32, m, true, false⟩)]) buf2 d
  | cons a rest ih =>
    rw [List.cons_append, List.cons_append, concatLoop, concatLoop]
    simp only []
    repeat' split
    all_goals first | rfl | exact ih ..


/-- Claim C7: a replication whose count constant-evaluates to zero is an error
(`ReplicationZeroOutsideConcat`, bad expression) outside a concatenation; when
bound inside a concatenation it gets the void placeholder type with no
diagnostic and contributes zero bits to the concatenation's summed width
(removing it changes neither the concatenation's type nor the
diagnostics). -/
theorem replicationZero_spec :
    (∀ (m : Int) (ctx : BindFlags) (d : List DiagCode),
      ctx.insideConcatenation = false →
      create (.multipleConcat (.integerLiteral 0) (.integerLiteral m)) ctx noFlags d =
        (badExpr (some (.replication .error
          (.integerLiteral (.predefined .int) ⟨32, 0, true, false⟩)
          (.integerLiteral (.predefined .int) ⟨32, m, true, false⟩))),
         d ++ [DiagCode.ReplicationZeroOutsideConcat]) ∧
      (create (.multipleConcat (.integerLiteral 0) (.integerLiteral m)) ctx noFlags d).1.bad
        = true) ∧
    (∀ (m : Int) (ctx : BindFlags) (d : List DiagCode),
      ctx.insideConcatenation = true →
      create (.multipleConcat (.integerLiteral 0) (.integerLiteral m)) ctx noFlags d =
        (.replication .void
          (.integerLiteral (.predefined .int) ⟨32, 0, true, false⟩)
          (.integerLiteral (.predefined .int) ⟨32, m, true, false⟩), d)) ∧
    (∀ (xs zs : List ExprStx) (m : Int) (ctx : BindFlags) (d : List DiagCode),
      ((create (.concatenationExpr
          (xs ++ .multipleConcat (.integerLiteral 0) (.integerLiteral m) :: zs))
          ctx noFlags d).1.type =
        (create (.concatenationExpr (xs ++ zs)) ctx noFlags d).1.type) ∧
      ((create (.concatenationExpr
          (xs ++ .multipleConcat (.integerLiteral 0) (.integerLiteral m) :: zs))
          ctx noFlags d).2 =
        (create (.concatenationExpr (xs ++ zs)) ctx noFlags d).2)) := by
  refine ⟨?_, ?_, ?_⟩
  · intro m ctx d h
    rw [create_multipleConcat, resetFlags_noFlags]
    rw [replicationFromStx_zero_outside m ctx d h]
    exact ⟨rfl, rfl⟩
  · intro m ctx d h
    rw [create_multipleConcat, resetFlags_noFlags]
    exact replicationFromStx_zero_inside m ctx d h
  · intro xs zs m ctx d
    rw [create_concatenationExpr, create_concatenationExpr, resetFlags_noFlags]
    have h := concatLoop_skip_zero_replication xs zs m ctx false ⟨false, false, false⟩ 0 [] [] d
    unfold concatenationFromStx
    rcases h1 : concatLoop
        (xs ++ .multipleConcat (.integerLiteral 0) (.integerLiteral m) :: zs)
        ctx false ⟨false, false, false⟩ 0 [] d with ⟨e1, f1, w1, b1, d1⟩
    rcases h2 : concatLoop (xs ++ zs) ctx false ⟨false, false, false⟩ 0 [] d
      with ⟨e2, f2, w2, b2, d2⟩
    rw [h1, h2] at h
    simp only [concatOutcome, Prod.mk.injEq] at h
    obtain ⟨he, hf, hw, hd⟩ := h
    subst he
    subst hf
    subst hw
    subst hd
    cases e1 <;> exact ⟨rfl, rfl⟩

/-- Witness for the C7 theorem at concrete inputs: `{0{1}}` at top level, the
same inside a concatenation, and a concatenation `{5, {0{1}}}` whose type
matches that of `{5}`. -/
theorem replicationZero_spec_witness :
    (noFlags.insideConcatenation = false ∧
      create (.multipleConcat (.integerLiteral 0) (.integerLiteral 1)) noFlags noFlags [] =
        (badExpr (some (.replication .error
          (.integerLiteral (.predefined .int) ⟨32, 0, true, false⟩)
          (.integerLiteral (.predefined .int) ⟨32, 1, true, false⟩))),
         [DiagCode.ReplicationZeroOutsideConcat])) ∧
    (insideConcatFlag.insideConcatenation = true ∧
      create (.multipleConcat (.integerLiteral 0) (.integerLiteral 1)) insideConcatFlag
          noFlags [] =
        (.replication .void
          (.integerLiteral (.predefined .int) ⟨32, 0, true, false⟩)
          (.integerLiteral (.predefined .int) ⟨32, 1, true, false⟩), [])) ∧
    ((create (.concatenationExpr
        [.integerLiteral 5, .multipleConcat (.integerLiteral 0) (.integerLiteral 1)])
        noFlags noFlags []).1.type =
      (create (.concatenationExpr [.integerLiteral 5]) noFlags noFlags []).1.type) := by
  refine ⟨⟨rfl, ?_⟩, ⟨rfl, ?_⟩, ?_⟩
  · exact (replicationZero_spec.1 1 noFlags [] rfl).1
  · exact replicationZero_spec.2.1 1 insideConcatFlag [] rfl
  · exact (replicationZero_spec.2.2 [.integerLiteral 5] [] 1 noFlags []).1


/-! ## Compilation manager (Compilation.cpp)

The member-syntax fragment below covers exactly the node kinds inspected by
`Compilation::findInstantiations` (lines 418-515); every other member kind
falls under `otherMember` (the `default: break` arms).  Names are the
`valueText()` of the relevant tokens; an empty string models a missing
name. -/

mutual

inductive MemberStx where
  | moduleDecl (name : String) (members : List MemberStx)
  | interfaceDecl (name : String) (members : List MemberStx)
  | programDecl (name : String) (members : List MemberStx)
  | hierarchyInstantiation (typeName : String)
  | generateRegion (members : List MemberStx)
  | generateBlock (members : List MemberStx)
  | loopGenerate (block : MemberStx)
  | caseGenerate (items : List CaseItemStx)
  | ifGenerate (block : MemberStx) (elseClause : Option MemberStx)
  | otherMember

inductive CaseItemStx where
  | defaultItem (clause : MemberStx)
  | standardItem (clause : MemberStx)
  | otherItem

end

/-- Whether a member is a `ModuleDeclarationSyntax`. -/
def isModuleDeclStx : MemberStx → Bool
  | .moduleDecl _ _ => true
  | _ => false

/-- The declared name of a module/interface/program member, if any (the scan
at Compilation.cpp lines 423-443). -/
def declaredName : MemberStx → Option String
  | .moduleDecl n _ => some n
  | .interfaceDecl n _ => some n
  | .programDecl n _ => some n
  | _ => none

/-- Insertion into a name set (`flat_hash_set<string_view>::insert`),
modelled on lists by membership. -/
def insertName (s : List String) (n : String) : List String :=
  if n ∈ s then s else s ++ [n]

/-- `containsName` (Compilation.cpp lines 453-459): whether any set on the
scope stack holds the name. -/
def containsName (scopeStack : List (List String)) (name : String) : Bool :=
  scopeStack.any (fun set => name ∈ set)

/-- The local-definition collection at the head of
`findInstantiations(ModuleDeclarationSyntax&, ...)` (lines 422-443): the
names of nested module/interface/program declarations, skipping empty
names. -/
def collectLocalDefs (members : List MemberStx) : List String :=
  members.foldl
    (fun acc m =>
      match declaredName m with
      | some n => if n = "" then acc else insertName acc n
      | none => acc)
    []

mutual

/-- `Compilation::findInstantiations(const ModuleDeclarationSyntax&, ...)`
(lines 418-451): collect nested definition names into a new scope-stack
entry (created only when nonempty), then traverse all children; the entry is
popped on exit, which the functional embedding realizes by returning only the
found set. -/
def findInstsInModule (members : List MemberStx) (scopeStack : List (List String))
    (found : List String) : List String :=
  let localDefs := collectLocalDefs members
  let stack := if localDefs.isEmpty then scopeStack else localDefs :: scopeStack
  findInstsInMembers members stack found

/-- `Compilation::findInstantiations(const MemberSyntax&, ...)` (lines
461-515). -/
def findInstsInMember (node : MemberStx) (scopeStack : List (List String))
    (found : List String) : List String :=
  match node with
  | .hierarchyInstantiation typeName =>
      if typeName ≠ "" ∧ ¬ containsName scopeStack typeName then
        insertName found typeName
      else found
  | .moduleDecl _ members => findInstsInModule members scopeStack found
  | .interfaceDecl _ members => findInstsInModule members scopeStack found
  | .programDecl _ members => findInstsInModule members scopeStack found
  | .generateRegion members => findInstsInMembers members scopeStack found
  | .generateBlock members => findInstsInMembers members scopeStack found
  | .loopGenerate block => findInstsInMember block scopeStack found
  | .caseGenerate items => findInstsInItems items scopeStack found
  | .ifGenerate block elseClause =>
      let found := findInstsInMember block scopeStack found
      match elseClause with
      | some clause => findInstsInMember clause scopeStack found
      | none => found
  | .otherMember => found

/-- Traversal over a member list (the `for` loops of both overloads). -/
def findInstsInMembers (nodes : List MemberStx) (scopeStack : List (List String))
    (found : List String) : List String :=
  match nodes with
  | [] => found
  | n :: rest => findInstsInMembers rest scopeStack (findInstsInMember n scopeStack found)

/-- Traversal over `CaseGenerateSyntax` items (lines 489-504). -/
def findInstsInItems (items : List CaseItemStx) (scopeStack : List (List String))
    (found : List String) : List String :=
  match items with
  | [] => found
  | .defaultItem clause :: rest =>
      findInstsInItems rest scopeStack (findInstsInMember clause scopeStack found)
  | .standardItem clause :: rest =>
      findInstsInItems rest scopeStack (findInstsInMember clause scopeStack found)
  | .otherItem :: rest => findInstsInItems rest scopeStack found

end

/-- The root node of a syntax tree: either a whole compilation unit or a
single member (Compilation.cpp lines 123-142). -/
inductive RootStx where
  | compilationUnit (members : List MemberStx)
  | singleMember (member : MemberStx)

/-- A syntax tree: its source manager (by identity) and its root. -/
structure SyntaxTreeM where
  sourceManagerId : Nat
  root : RootStx

/-- A registered definition (`Definition`): its name and its declaration
node (`definition->syntax`). -/
structure DefinitionM where
  name : String
  stx : MemberStx

/-- A member of the root symbol: a compilation unit added by `addSyntaxTree`
or a top-level module instance added during finalization. -/
inductive RootMember where
  | compilationUnit (root : RootStx)
  | moduleInstance (name : String)

/-- The compilation state touched by `addSyntaxTree` and `getRoot`.  The
definition map is keyed by (name, scope) in the source; the scope component
and the lazy population of the map (which happens in scope elaboration, not
among the provided sources) are not modelled: `definitionMap` is simply the
set of registered definitions at finalization time. -/
structure CompilationM where
  finalized : Bool
  sourceManager : Option Nat
  instantiatedNames : List String
  definitionMap : List DefinitionM
  rootMembers : List RootMember
  compilationUnits : List RootStx
  syntaxTrees : List SyntaxTreeM
  forcedDiagnostics : Bool
  topInstances : List String

/-- The instantiation names found in one syntax tree by `addSyntaxTree`
(lines 121-142): only top-level module declarations are scanned. -/
def treeInstNames (tree : SyntaxTreeM) : List String :=
  match tree.root with
  | .compilationUnit members =>
      members.foldl
        (fun acc m => if isModuleDeclStx m then findInstsInMember m [] acc else acc) []
  | .singleMember m =>
      if isModuleDeclStx m then findInstsInMember m [] [] else []

/-- `Compilation::addSyntaxTree` (Compilation.cpp lines 108-154).  The two
`throw std::logic_error` statements become `Except.error`; both happen before
any state change.  Creating the compilation-unit symbol and registering the
tree are modelled by appending to the respective lists. -/
def addSyntaxTree (c : CompilationM) (tree : SyntaxTreeM) :
    Except String CompilationM :=
  if c.finalized then
    .error ("The compilation has already been finalized")
  else if some tree.sourceManagerId ≠ c.sourceManager ∧ c.sourceManager ≠ none then
    .error ("All syntax trees added to the compilation must use the same source manager")
  else
    let sm := match c.sourceManager with
      | none => some tree.sourceManagerId
      | some x => some x
    let instances := treeInstNames tree
    .ok { c with
      sourceManager := sm
      instantiatedNames := instances.foldl insertName c.instantiatedNames
      rootMembers := c.rootMembers ++ [.compilationUnit tree.root]
      compilationUnits := c.compilationUnits ++ [tree.root]
      syntaxTrees := c.syntaxTrees ++ [tree]
      forcedDiagnostics := false }

/-- The compilation state after a call whose thrown exception leaves the
object untouched (C++ exception semantics: both throws in `addSyntaxTree`
precede every mutation). -/
def addSyntaxTreeState (c : CompilationM) (tree : SyntaxTreeM) : CompilationM :=
  match addSyntaxTree c tree with
  | .ok c' => c'
  | .error _ => c

/-- The root symbol as observed through `getRoot`. -/
structure RootM where
  members : List RootMember
  topInstances : List String
  compilationUnits : List RootStx

/-- `Compilation::getRoot` (Compilation.cpp lines 160-186): on the first call,
instantiate every module definition whose name was never referenced as an
instantiation, add each instance to the root's members in iteration order,
sort the top-instance list by name, and latch `finalized`. -/
def getRoot (c : CompilationM) : RootM × CompilationM :=
  if c.finalized then
    ({ members := c.rootMembers, topInstances := c.topInstances,
       compilationUnits := c.compilationUnits }, c)
  else
    let topDefs := c.definitionMap.filter (fun d =>
      isModuleDeclStx d.stx && !(c.instantiatedNames.contains d.name))
    let instances := topDefs.map (fun d => d.name)
    let members := c.rootMembers ++ instances.map RootMember.moduleInstance
    let sorted := instances.mergeSort
    ({ members := members, topInstances := sorted,
       compilationUnits := c.compilationUnits },
     { c with finalized := true, rootMembers := members, topInstances := sorted })


/-- Claim C3: finalization of the root is a one-way latch: after `getRoot`
has been observed, `addSyntaxTree` raises a hard error to the caller (not a
diagnostic), and the refused call leaves the compilation state unchanged —
hence every subsequent call is refused as well. -/
theorem finalization_latch (c : CompilationM) (tree : SyntaxTreeM) :
    ((getRoot c).2.finalized = true) ∧
    (addSyntaxTree (getRoot c).2 tree =
      .error ("The compilation has already been finalized")) ∧
    (∀ trees : List SyntaxTreeM,
      trees.foldl addSyntaxTreeState (getRoot c).2 = (getRoot c).2) := by
  have hfin : (getRoot c).2.finalized = true := by
    unfold getRoot
    by_cases h : c.finalized
    · simp [h]
    · simp [h]
  have herr : ∀ t : SyntaxTreeM, addSyntaxTree (getRoot c).2 t =
      .error ("The compilation has already been finalized") := by
    intro t
    unfold addSyntaxTree
    rw [if_pos hfin]
  refine ⟨hfin, herr tree, ?_⟩
  intro trees
  induction trees with
  | nil => rfl
  | cons t rest ih =>
    rw [List.foldl_cons]
    have hstate : addSyntaxTreeState (getRoot c).2 t = (getRoot c).2 := by
      unfold addSyntaxTreeState
      rw [herr t]
    rw [hstate, ih]

/-! ## Packed-array type interning (Compilation.cpp lines 352-363) -/

/-- The numeric encoding of an `IntegralFlags` bitmask (Signed = 1,
FourState = 2, Reg = 4). -/
def IntegralFlags.bits (f : IntegralFlags) : Nat :=
  (if f.sign then 1 else 0) + (if f.fourState then 2 else 0) + (if f.reg then 4 else 0)

/-- `SVInt::BITWIDTH_BITS` — modelled from the source's use of SVInt.h (not
among the provided sources): widths occupy the low 24 bits of the cache
key. -/
def bitwidthBits : Nat := 24

/-- The state of `vectorTypeCache` together with the arena: cache entries map
the 32-bit key to the arena slot of the interned `PackedArrayType`, and the
arena slot index models pointer identity (the arena never relocates). -/
structure VectorTypeCache where
  entries : List (Nat × Nat)
  arena : List Ty

/-- `Compilation::getType(bitwidth_t, bitmask<IntegralFlags>)`
(Compilation.cpp lines 352-363): look the key up in `vectorTypeCache`; on a
miss, emplace a new `PackedArrayType` over `[width-1:0]` of the scalar for
the flags and cache it.  The returned `Nat` is the arena slot — the pointer
identity of the returned type. -/
def getTypeInterned (c : VectorTypeCache) (width : Nat) (flags : IntegralFlags) :
    Nat × VectorTypeCache :=
  let key := width ||| (flags.bits <<< bitwidthBits)
  match c.entries.lookup key with
  | some idx => (idx, c)
  | none =>
      let idx := c.arena.length
      (idx, ⟨(key, idx) :: c.entries, c.arena ++ [getType width flags]⟩)

/-- Claim C4: for every width `w > 0` and every flags value, two calls of
`getType(w, flags)` on the same compilation return the same object (the same
arena slot, i.e. pointer equality), and the second call leaves the cache
unchanged. -/
theorem getTypeInterned_idempotent (c : VectorTypeCache) (w : Nat)
    (flags : IntegralFlags) (hw : 0 < w) :
    (getTypeInterned c w flags).1 =
      (getTypeInterned (getTypeInterned c w flags).2 w flags).1 ∧
    (getTypeInterned (getTypeInterned c w flags).2 w flags).2 =
      (getTypeInterned c w flags).2 := by
  unfold getTypeInterned
  rcases hl : c.entries.lookup (w ||| (flags.bits <<< bitwidthBits)) with _ | idx
  · simp only [hl]
    constructor <;> simp [List.lookup]
  · simp [hl]

/-- Witness for the C4 theorem: interning an 8-bit unsigned two-state packed
array twice starting from an empty cache returns arena slot 0 both times. -/
theorem getTypeInterned_idempotent_witness :
    0 < 8 ∧
    ((getTypeInterned (⟨[], []⟩ : VectorTypeCache) 8 ⟨false, false, false⟩).1 =
      (getTypeInterned
        (getTypeInterned (⟨[], []⟩ : VectorTypeCache) 8 ⟨false, false, false⟩).2
        8 ⟨false, false, false⟩).1) ∧
    (getTypeInterned (⟨[], []⟩ : VectorTypeCache) 8 ⟨false, false, false⟩).1 = 0 := by
  refine ⟨by decide, ?_, by decide⟩
  exact (getTypeInterned_idempotent ⟨[], []⟩ 8 ⟨false, false, false⟩ (by decide)).1

/-- Membership after set-insertion. -/
theorem mem_insertName (acc : List String) (a n : String) :
    n ∈ insertName acc a ↔ (n ∈ acc ∨ n = a) := by
  unfold insertName
  split
  · next hmem =>
    constructor
    · exact fun hx => Or.inl hx
    · rintro (hx | rfl)
      · exact hx
      · exact hmem
  · simp

/-- Membership after folding set-insertions. -/
theorem mem_foldl_insertName (ns : List String) (acc : List String) (n : String) :
    n ∈ ns.foldl insertName acc ↔ (n ∈ acc ∨ n ∈ ns) := by
  induction ns generalizing acc with
  | nil => simp
  | cons a rest ih =>
    rw [List.foldl_cons, ih, mem_insertName]
    simp only [List.mem_cons]
    tauto

/-- Claim C6: when `getRoot` finalizes the compilation, the top-level
instance list is a permutation of one instance per module definition whose
name was never referenced as an instantiation, sorted by name; the instances
are added under the root; and `addSyntaxTree` records into
`instantiatedNames` exactly the names referenced by the added tree. -/
theorem getRoot_top_level_modules (c : CompilationM) (h : c.finalized = false) :
    ((getRoot c).1.topInstances.Perm
      ((c.definitionMap.filter (fun d =>
        isModuleDeclStx d.stx && !(c.instantiatedNames.contains d.name))).map
        (fun d => d.name))) ∧
    List.Sorted (· ≤ ·) (getRoot c).1.topInstances ∧
    ((getRoot c).1.members = c.rootMembers ++
      ((c.definitionMap.filter (fun d =>
        isModuleDeclStx d.stx && !(c.instantiatedNames.contains d.name))).map
        (fun d => RootMember.moduleInstance d.name))) ∧
    (∀ (tree : SyntaxTreeM) (c' : CompilationM), addSyntaxTree c tree = .ok c' →
      ∀ n, n ∈ c'.instantiatedNames ↔
        (n ∈ c.instantiatedNames ∨ n ∈ treeInstNames tree)) := by
  have hne : ¬ (c.finalized = true) := by simp [h]
  refine ⟨?_, ?_, ?_, ?_⟩
  · unfold getRoot
    rw [if_neg hne]
    exact List.mergeSort_perm ..
  · unfold getRoot
    rw [if_neg hne]
    exact List.sorted_mergeSort' ..
  · unfold getRoot
    rw [if_neg hne]
    simp [List.map_map]
  · intro tree c' heq n
    unfold addSyntaxTree at heq
    rw [if_neg hne] at heq
    split at heq
    · exact absurd heq (by simp)
    · have : c'.instantiatedNames = (treeInstNames tree).foldl insertName c.instantiatedNames := by
        cases heq
        rfl
      rw [this, mem_foldl_insertName]

/-- Witness for the C6 theorem at a concrete compilation: definitions `b`,
`a`, `c` with `c` already instantiated; the top-level instances are a sorted
permutation of `[b, a]`. -/
theorem getRoot_top_level_modules_witness :
    (⟨false, none, ["c"],
      [⟨"b", .moduleDecl "b" []⟩, ⟨"a", .moduleDecl "a" []⟩, ⟨"c", .moduleDecl "c" []⟩],
      [], [], [], false, []⟩ : CompilationM).finalized = false ∧
    ((getRoot (⟨false, none, ["c"],
      [⟨"b", .moduleDecl "b" []⟩, ⟨"a", .moduleDecl "a" []⟩, ⟨"c", .moduleDecl "c" []⟩],
      [], [], [], false, []⟩ : CompilationM)).1.topInstances.Perm ["b", "a"]) ∧
    List.Sorted (· ≤ ·)
      (getRoot (⟨false, none, ["c"],
        [⟨"b", .moduleDecl "b" []⟩, ⟨"a", .moduleDecl "a" []⟩, ⟨"c", .moduleDecl "c" []⟩],
        [], [], [], false, []⟩ : CompilationM)).1.topInstances := by
  refine ⟨rfl, ?_, ?_⟩
  · exact (getRoot_top_level_modules _ rfl).1
  · exact (getRoot_top_level_modules _ rfl).2.1


/-! ## Lexer (Lexer.cpp)

The lexer state is the remaining byte suffix of the buffer
(`sourceBuffer` to `sourceEnd`), the shared diagnostics list, the error
count and the `onNewLine` flag.  Byte values are naturals; `peek` past the
end reads as 0, matching the NUL-terminated buffer contract
(`ASSERT(sourceEnd[-1] == '\0')`).  Source locations and token payloads
(`info->extra`, numeric values) are not modelled; diagnostics carry only
their codes.  The character classification helpers come from text/CharInfo.h,
which is not among the provided sources; they are modelled from their
standard meanings. -/

/-- Token kinds returned by the embedded `Lexer::lexToken` (TokenKind lives
in parsing headers that are not among the provided sources; the constructors
are those the provided Lexer.cpp returns; keyword kinds come in through the
keyword-table parameter, which may return any of these kinds). -/
inductive TokenKind where
  | EndOfFile | EndOfDirective | Unknown | Identifier | StringLiteral
  | IntegerLiteral | IntegerBase | UnbasedUnsizedLiteral | RealLiteral
  | TimeLiteral | OneStep | Directive | IncludeFileName
  | MacroQuote | MacroPaste | MacroEscapedQuote
  | Apostrophe | ApostropheOpenBrace
  | Exclamation | ExclamationEquals | ExclamationDoubleEquals | ExclamationEqualsQuestion
  | DoubleHash | HashMinusHash | HashEqualsHash | Hash
  | Dollar | Percent | PercentEqual
  | And | DoubleAnd | TripleAnd | AndEqual
  | OpenParenthesis | OpenParenthesisStar | OpenParenthesisStarCloseParenthesis
  | CloseParenthesis
  | Star | DoubleStar | StarEqual | StarArrow | StarCloseParenthesis | StarDoubleColonStar
  | Plus | DoublePlus | PlusEqual | PlusColon
  | Comma
  | Minus | DoubleMinus | MinusEqual | MinusColon | MinusArrow | MinusDoubleArrow
  | Dot | DotStar
  | Slash | SlashEqual
  | Colon | ColonEquals | ColonSlash | DoubleColon
  | Semicolon
  | LessThan | LessThanEquals | LessThanMinusArrow
  | LeftShift | LeftShiftEqual | TripleLeftShift | TripleLeftShiftEqual
  | Equals | DoubleEquals | TripleEquals | DoubleEqualsQuestion | EqualsArrow
  | GreaterThan | GreaterThanEquals
  | RightShift | RightShiftEqual | TripleRightShift | TripleRightShiftEqual
  | Question
  | At | DoubleAt | AtStar
  | OpenBracket | CloseBracket
  | Xor | XorTilde | XorEqual
  | OpenBrace | CloseBrace
  | Or | DoubleOr | OrMinusArrow | OrMinusDoubleArrow | OrEqualsArrow | OrEqual
  | Tilde | TildeAnd | TildeOr | TildeXor
deriving DecidableEq, Repr

/-- Trivia kinds used by the embedded lexer. -/
inductive TriviaKind where
  | Whitespace | EndOfLine | LineContinuation | LineComment | BlockComment
  | DisabledText
deriving DecidableEq, Repr

/-- A trivia piece: its kind and raw text. -/
structure TriviaM where
  kind : TriviaKind
  text : List Nat
deriving DecidableEq, Repr

/-- A lexed token: kind, raw text and leading trivia (location and payload
are not modelled). -/
structure TokenM where
  kind : TokenKind
  rawText : List Nat
  trivia : List TriviaM
deriving DecidableEq, Repr

/-- `LexerMode` (Lexer.h). -/
inductive LexerMode where
  | Normal | Directive | IncludeFileName
deriving DecidableEq, Repr

/-- `LexerOptions`: `maxErrors`, after which the lexer abandons. -/
structure LexerOptionsM where
  maxErrors : Nat
deriving DecidableEq, Repr

/-- The directive kinds distinguished by the embedded lexer
(`getDirectiveKind` lives outside the provided sources; only
include-or-not matters to Lexer.cpp). -/
inductive DirectiveKindM where
  | IncludeDirective | OtherDirective | UnknownDirectiveKind
deriving DecidableEq, Repr

/-- The keyword and directive tables the lexer consults
(`getKeywordTable(keywordVersion)->lookup`, `getSystemKeywordKind`,
`getDirectiveKind`), none of which are among the provided sources; the
embedding is parameterized by them. -/
structure LexerTables where
  keywordLookup : List Nat → Option TokenKind
  systemKeywordKind : List Nat → TokenKind
  directiveKind : List Nat → DirectiveKindM

/-- The lexer state: the remaining byte suffix, the shared diagnostics, the
error count, the `onNewLine` flag and the options. -/
structure LexerM where
  rest : List Nat
  diags : List DiagCode
  errorCount : Nat
  onNewLine : Bool
  options : LexerOptionsM

/-! Character classes (text/CharInfo.h, modelled). -/

def isASCIIB (c : Nat) : Bool := c < 128
def isPrintableB (c : Nat) : Bool := 33 ≤ c && c ≤ 126
def isWhitespaceB (c : Nat) : Bool :=
  c == 32 || c == 9 || c == 11 || c == 12 || c == 13 || c == 10
def isHorizontalWhitespaceB (c : Nat) : Bool :=
  c == 32 || c == 9 || c == 11 || c == 12
def isNewlineB (c : Nat) : Bool := c == 13 || c == 10
def isDecimalDigitB (c : Nat) : Bool := 48 ≤ c && c ≤ 57
def isOctalDigitB (c : Nat) : Bool := 48 ≤ c && c ≤ 55
def isHexDigitB (c : Nat) : Bool :=
  (48 ≤ c && c ≤ 57) || (97 ≤ c && c ≤ 102) || (65 ≤ c && c ≤ 70)
def isAlphaNumericB (c : Nat) : Bool :=
  (48 ≤ c && c ≤ 57) || (65 ≤ c && c ≤ 90) || (97 ≤ c && c ≤ 122)
def getDigitValue (c : Nat) : Nat := c - 48
def getHexDigitValue (c : Nat) : Nat :=
  if c ≤ 57 then c - 48 else if c ≤ 70 then c - 55 else c - 87
def utf8SeqBytes (c : Nat) : Nat :=
  if 192 ≤ c && c ≤ 223 then 1
  else if 224 ≤ c && c ≤ 239 then 2
  else if 240 ≤ c && c ≤ 247 then 3
  else 0
def literalBaseFromChar (c : Nat) : Bool :=
  c == 100 || c == 68 || c == 98 || c == 66 || c == 111 || c == 79 ||
  c == 104 || c == 72

/-- The text consumed between a marked position and the current one
(`lexeme()`): the prefix of `before` not contained in `after`. -/
def lexemeOf (before after : List Nat) : List Nat :=
  before.take (before.length - after.length)

/-- `Lexer::scanWhitespace` (Lexer.cpp lines 979-995): consume spaces, tabs,
vertical tabs and form feeds. -/
def scanWhitespaceLoop : List Nat → List Nat
  | 32 :: rest => scanWhitespaceLoop rest
  | 9 :: rest => scanWhitespaceLoop rest
  | 11 :: rest => scanWhitespaceLoop rest
  | 12 :: rest => scanWhitespaceLoop rest
  | rest => rest

/-- `Lexer::scanIdentifier` (lines 951-959). -/
def scanIdentifierLoop : List Nat → List Nat
  | c :: rest =>
      if isAlphaNumericB c || c == 95 || c == 36 then scanIdentifierLoop rest
      else c :: rest
  | [] => []

/-- The leading-zero skip of `lexNumericLiteral` (lines 728-730). -/
def skipLeadingZerosLoop : List Nat → List Nat
  | 48 :: rest => skipLeadingZerosLoop rest
  | rest => rest

/-- `Lexer::scanUnsignedNumber` (lines 961-977): digits and underscores; the
64-bit value stops accumulating after 18 digits. -/
def scanUnsignedNumberLoop : List Nat → Nat → Nat → List Nat × Nat × Nat
  | c :: rest, value, digits =>
      if c == 95 then scanUnsignedNumberLoop rest value digits
      else if !(isDecimalDigitB c) then (c :: rest, value, digits)
      else if digits < 18 then
        scanUnsignedNumberLoop rest ((value * 10 + getDigitValue c) % 2 ^ 64) (digits + 1)
      else scanUnsignedNumberLoop rest value (digits + 1)
  | [], value, digits => ([], value, digits)

/-- `Lexer::scanLineComment` (lines 997-1020): until a newline; in directive
mode a line-continuation stops the comment; embedded NULs are reported and
skipped. -/
def scanLineCommentLoop (dm : Bool) : List Nat → List DiagCode → List Nat × List DiagCode
  | [], diags => ([], diags)
  | c :: rest, diags =>
      if isNewlineB c then (c :: rest, diags)
      else if c == 92 && dm && isNewlineB (rest.headD 0) then (c :: rest, diags)
      else if c == 0 then
        if rest.isEmpty then (c :: rest, diags)
        else scanLineCommentLoop dm rest (diags ++ [DiagCode.EmbeddedNull])
      else scanLineCommentLoop dm rest diags

/-- `Lexer::scanBlockComment` (lines 1022-1058): until `*/` or the end of the
buffer; nested openers and embedded NULs are reported and skipped; in
directive mode a newline inside the comment reports
`SplitBlockCommentInDirective` and requests an end-of-directive. -/
def scanBlockCommentLoop (dm : Bool) : List Nat → List DiagCode → Bool →
    List Nat × List DiagCode × Bool
  | [], diags, eod => ([], diags ++ [DiagCode.UnterminatedBlockComment], eod)
  | c :: rest, diags, eod =>
      if c == 0 then
        if rest.isEmpty then (c :: rest, diags ++ [DiagCode.UnterminatedBlockComment], eod)
        else scanBlockCommentLoop dm rest (diags ++ [DiagCode.EmbeddedNull]) eod
      else if c == 42 && rest.headD 0 == 47 then (rest.drop 1, diags, eod)
      else if c == 47 && rest.headD 0 == 42 then
        scanBlockCommentLoop dm (rest.drop 1) (diags ++ [DiagCode.NestedBlockComment]) eod
      else if dm && isNewlineB c then
        scanBlockCommentLoop dm rest (diags ++ [DiagCode.SplitBlockCommentInDirective]) true
      else scanBlockCommentLoop dm rest diags eod
termination_by l _ _ => l.length
decreasing_by
  all_goals simp_wf
  all_goals omega

/-- The loop of `Lexer::lexStringLiteral` (lines 523-610), accumulating the
decoded string value and stopping at the closing quote, a newline or the end
of the buffer.  Peeks past the end read as NUL. -/
def lexStringLiteralLoop : List Nat → List Nat → List DiagCode →
    List Nat × List Nat × List DiagCode
  | [], buf, diags => ([], buf, diags ++ [DiagCode.ExpectedClosingQuote])
  | 92 :: r, buf, diags =>
      -- backslash escape: advance over the backslash and the escape char
      let c := r.headD 0
      if c == 110 then lexStringLiteralLoop (r.drop 1) (buf ++ [10]) diags
      else if c == 116 then lexStringLiteralLoop (r.drop 1) (buf ++ [9]) diags
      else if c == 92 then lexStringLiteralLoop (r.drop 1) (buf ++ [92]) diags
      else if c == 34 then lexStringLiteralLoop (r.drop 1) (buf ++ [34]) diags
      else if c == 118 then lexStringLiteralLoop (r.drop 1) (buf ++ [11]) diags
      else if c == 102 then lexStringLiteralLoop (r.drop 1) (buf ++ [12]) diags
      else if c == 97 then lexStringLiteralLoop (r.drop 1) (buf ++ [7]) diags
      else if c == 10 then lexStringLiteralLoop (r.drop 1) buf diags
      else if c == 13 then
        if (r.drop 1).headD 0 == 10 then lexStringLiteralLoop (r.drop 2) buf diags
        else lexStringLiteralLoop (r.drop 1) buf diags
      else if isOctalDigitB c then
        let c2 := (r.drop 1).headD 0
        if isOctalDigitB c2 then
          let c3 := (r.drop 2).headD 0
          if isOctalDigitB c3 then
            let code := getDigitValue c * 64 + getDigitValue c2 * 8 + getDigitValue c3
            if code > 255 then
              lexStringLiteralLoop (r.drop 3) buf (diags ++ [DiagCode.OctalEscapeCodeTooBig])
            else lexStringLiteralLoop (r.drop 3) (buf ++ [code]) diags
          else
            lexStringLiteralLoop (r.drop 2)
              (buf ++ [getDigitValue c * 8 + getDigitValue c2]) diags
        else lexStringLiteralLoop (r.drop 1) (buf ++ [getDigitValue c]) diags
      else if c == 120 then
        -- hex escape: one more unconditional advance over the char after x
        let c2 := (r.drop 1).headD 0
        if !(isHexDigitB c2) then
          lexStringLiteralLoop (r.drop 2) (buf ++ [c2]) (diags ++ [DiagCode.InvalidHexEscapeCode])
        else
          let c3 := (r.drop 2).headD 0
          if isHexDigitB c3 then
            lexStringLiteralLoop (r.drop 3)
              (buf ++ [getHexDigitValue c2 * 16 + getHexDigitValue c3]) diags
          else lexStringLiteralLoop (r.drop 2) (buf ++ [getHexDigitValue c2]) diags
      else lexStringLiteralLoop (r.drop 1) (buf ++ [c]) (diags ++ [DiagCode.UnknownEscapeCode])
  | 34 :: r, buf, diags => (r, buf, diags)
  | c :: r, buf, diags =>
      if isNewlineB c then (c :: r, buf, diags ++ [DiagCode.ExpectedClosingQuote])
      else if c == 0 then
        if r.isEmpty then (c :: r, buf, diags ++ [DiagCode.ExpectedClosingQuote])
        else lexStringLiteralLoop r buf (diags ++ [DiagCode.EmbeddedNull])
      else lexStringLiteralLoop r (buf ++ [c]) diags
termination_by l _ _ => l.length
decreasing_by
  all_goals simp_wf
  all_goals omega

/-- The loop of `Lexer::lexEscapeSequence` (lines 619-624): consume printable
characters, stopping before whitespace. -/
def escapedIdentifierLoop : List Nat → List Nat
  | c :: rest =>
      if isPrintableB c then
        if isWhitespaceB (rest.headD 0) then rest
        else escapedIdentifierLoop rest
      else c :: rest
  | [] => []

/-- The do-while loop of `Lexer::lexIncludeFileName` (lines 700-707). -/
def includeFileNameLoop (delim : Nat) : List Nat → List DiagCode →
    List Nat × List DiagCode
  | [], diags => ([], diags ++ [DiagCode.ExpectedIncludeFileName])
  | c :: rest, diags =>
      if c == 0 || isNewlineB c then (c :: rest, diags ++ [DiagCode.ExpectedIncludeFileName])
      else if c == delim then (rest, diags)
      else includeFileNameLoop delim rest diags


/-- `Lexer::lexEscapeSequence` (lines 612-628); called with the position
right after the leading backslash. -/
def lexEscapeSequence (rest : List Nat) (diags : List DiagCode) :
    TokenKind × List Nat × List DiagCode :=
  let c := rest.headD 0
  if isWhitespaceB c || c == 0 then (.Unknown, rest, diags ++ [DiagCode.EscapedWhitespace])
  else (.Identifier, escapedIdentifierLoop rest, diags)

/-- `Lexer::lexDollarSign` (lines 630-645); `restAtMark` is the suffix at the
token start (the `$` included) and `rest` the position after it. -/
def lexDollarSign (tables : LexerTables) (restAtMark rest : List Nat)
    (diags : List DiagCode) : TokenKind × List Nat × List DiagCode :=
  let r2 := scanIdentifierLoop rest
  if restAtMark.length - r2.length == 1 then (.Dollar, r2, diags)
  else
    let kind := tables.systemKeywordKind (lexemeOf restAtMark r2)
    if kind != .Unknown then (kind, r2, diags)
    else (.Identifier, r2, diags)

/-- `Lexer::lexDirective` (lines 647-664); `restAtMark` is the suffix at the
token start (the backtick included) and `rest` the position after it. -/
def lexDirective (tables : LexerTables) (restAtMark rest : List Nat)
    (diags : List DiagCode) (onNewLine : Bool) :
    TokenKind × List Nat × List DiagCode :=
  let r2 := scanIdentifierLoop rest
  if restAtMark.length - r2.length == 1 then
    (.Directive, r2, diags ++ [DiagCode.MisplacedDirectiveChar])
  else
    let kind := tables.directiveKind ((lexemeOf restAtMark r2).drop 1)
    if !onNewLine && kind == .IncludeDirective then
      (.Directive, r2, diags ++ [DiagCode.IncludeNotFirstOnLine])
    else (.Directive, r2, diags)

/-- `Lexer::lexTimeLiteral` (lines 860-883): a time-unit suffix with no
intervening whitespace; returns the position after the suffix on success. -/
def lexTimeLiteral : List Nat → Option (List Nat)
  | 115 :: r => some r
  | 109 :: 115 :: r => some r
  | 117 :: 115 :: r => some r
  | 110 :: 115 :: r => some r
  | 112 :: 115 :: r => some r
  | 102 :: 115 :: r => some r
  | _ => none

/-- `Lexer::scanExponent` (lines 789-811): an optional sign and at least one
decimal digit; on success the digits are consumed. -/
def scanExponent (rest : List Nat) : Option (List Nat × Nat × Bool) :=
  let c1 := rest.getD 1 0
  let (index, neg) : Nat × Bool :=
    if c1 == 43 then (2, false)
    else if c1 == 45 then (2, true)
    else (1, false)
  if isDecimalDigitB (rest.getD index 0) then
    let r := scanUnsignedNumberLoop (rest.drop index) 0 0
    some (r.1, r.2.1, neg)
  else none

/-- `Lexer::lexNumericLiteral` (lines 716-787); numeric payloads are not
modelled. -/
def lexNumericLiteral (rest : List Nat) (diags : List DiagCode) :
    TokenKind × List Nat × List DiagCode :=
  -- the "1step" magic keyword
  if [49, 115, 116, 101, 112].isPrefixOf rest then (.OneStep, rest.drop 5, diags)
  else
    let rest1 := skipLeadingZerosLoop rest
    let scanned := scanUnsignedNumberLoop rest1 0 0
    let rest2 := scanned.1
    let c := rest2.headD 0
    if c == 46 then
      -- fractional part
      let r3 := rest2.drop 1
      let diags3 :=
        if !(isDecimalDigitB (r3.headD 0)) then diags ++ [DiagCode.MissingFractionalDigits]
        else diags
      let scanned2 := scanUnsignedNumberLoop r3 scanned.2.1 scanned.2.2
      let rest4 := scanned2.1
      let c2 := rest4.headD 0
      if c2 == 101 || c2 == 69 then
        match scanExponent rest4 with
        | some result => (.RealLiteral, result.1, diags3)
        | none => (.RealLiteral, rest4, diags3 ++ [DiagCode.MissingExponentDigits])
      else
        match lexTimeLiteral rest4 with
        | some rest5 => (.TimeLiteral, rest5, diags3)
        | none => (.RealLiteral, rest4, diags3)
    else if c == 101 || c == 69 then
      match scanExponent rest2 with
      | some result => (.RealLiteral, result.1, diags)
      | none =>
        -- not an exponent: fall through to the time/integer cases
        match lexTimeLiteral rest2 with
        | some rest5 => (.TimeLiteral, rest5, diags)
        | none => (.IntegerLiteral, rest2, diags)
    else
      match lexTimeLiteral rest2 with
      | some rest5 => (.TimeLiteral, rest5, diags)
      | none => (.IntegerLiteral, rest2, diags)

/-- `Lexer::lexIntegerBase` (lines 850-858). -/
def lexIntegerBase (rest : List Nat) : Bool × List Nat :=
  if literalBaseFromChar (rest.headD 0) then (true, rest.drop 1)
  else (false, rest)

/-- `Lexer::lexApostrophe` (lines 813-848); called after the apostrophe has
been consumed. -/
def lexApostrophe (rest : List Nat) (diags : List DiagCode) :
    TokenKind × List Nat × List DiagCode :=
  let c := rest.headD 0
  if c == 48 || c == 49 || c == 120 || c == 88 || c == 90 || c == 122 || c == 63 then
    (.UnbasedUnsizedLiteral, rest.drop 1, diags)
  else if c == 115 || c == 83 then
    let r := lexIntegerBase (rest.drop 1)
    if r.1 then (.IntegerBase, r.2, diags)
    else (.IntegerBase, r.2, diags ++ [DiagCode.ExpectedIntegerBaseAfterSigned])
  else
    let r := lexIntegerBase rest
    if r.1 then (.IntegerBase, r.2, diags)
    else (.Apostrophe, rest, diags)

/-- The whitespace scan never grows the remaining input. -/
theorem scanWhitespaceLoop_length (l : List Nat) :
    (scanWhitespaceLoop l).length ≤ l.length := by
  induction l using scanWhitespaceLoop.induct <;> simp_all [scanWhitespaceLoop] <;> omega

/-- The line-comment scan never grows the remaining input. -/
theorem scanLineCommentLoop_length (dm : Bool) (l : List Nat) (d : List DiagCode) :
    (scanLineCommentLoop dm l d).1.length ≤ l.length := by
  induction l generalizing d with
  | nil => simp [scanLineCommentLoop]
  | cons c r ih =>
    rw [scanLineCommentLoop]
    repeat' split
    all_goals first
      | exact Nat.le_succ_of_le (ih _)
      | simp
      | (simp ; omega)

/-- The block-comment scan never grows the remaining input. -/
theorem scanBlockCommentLoop_length (dm : Bool) (l : List Nat) (d : List DiagCode)
    (e : Bool) : (scanBlockCommentLoop dm l d e).1.length ≤ l.length := by
  have key : ∀ (n : Nat) (l : List Nat) (d : List DiagCode) (e : Bool), l.length ≤ n →
      (scanBlockCommentLoop dm l d e).1.length ≤ l.length := by
    intro n
    induction n with
    | zero =>
      intro l d e hl
      have hz : l = [] := List.eq_nil_of_length_eq_zero (Nat.le_zero.mp hl)
      subst hz
      simp [scanBlockCommentLoop]
    | succ n ih =>
      intro l d e hl
      match l with
      | [] => simp [scanBlockCommentLoop]
      | c :: r =>
        simp only [List.length_cons] at hl
        have hr : r.length ≤ n := by omega
        have hrd : (r.drop 1).length ≤ n := by simp ; omega
        rw [scanBlockCommentLoop]
        repeat' split
        all_goals first
          | exact Nat.le_succ_of_le (ih _ _ _ hr)
          | exact le_trans (ih _ _ _ hr) (by omega)
          | exact le_trans (ih _ _ _ hrd) (by simp ; omega)
          | (simp ; omega)
          | simp
  exact key l.length l d e (le_refl _)

theorem scanWhitespaceLoop_length_lt (l : List Nat) :
    (scanWhitespaceLoop l).length < l.length + 1 :=
  Nat.lt_succ_of_le (scanWhitespaceLoop_length l)

theorem scanLineCommentLoop_length_lt (dm : Bool) (l : List Nat) (d : List DiagCode) :
    (scanLineCommentLoop dm l d).1.length < l.length + 2 := by
  have := scanLineCommentLoop_length dm l d
  omega

theorem scanBlockCommentLoop_length_lt (dm : Bool) (l : List Nat) (d : List DiagCode)
    (e : Bool) : (scanBlockCommentLoop dm l d e).1.length < l.length + 2 := by
  have := scanBlockCommentLoop_length dm l d e
  omega

/-- `Lexer::lexTrivia` (lines 885-949): collect leading trivia; returns
whether an `EndOfDirective` token must be produced right away, together with
the new position, the trivia buffer, the diagnostics and the `onNewLine`
flag. -/
def lexTrivia (dm : Bool) : List Nat → List TriviaM → List DiagCode → Bool →
    Bool × List Nat × List TriviaM × List DiagCode × Bool
  | rest, tb, diags, onl =>
    match rest with
    | 32 :: r =>
        let r2 := scanWhitespaceLoop r
        lexTrivia dm r2 (tb ++ [⟨.Whitespace, lexemeOf rest r2⟩]) diags onl
    | 9 :: r =>
        let r2 := scanWhitespaceLoop r
        lexTrivia dm r2 (tb ++ [⟨.Whitespace, lexemeOf rest r2⟩]) diags onl
    | 11 :: r =>
        let r2 := scanWhitespaceLoop r
        lexTrivia dm r2 (tb ++ [⟨.Whitespace, lexemeOf rest r2⟩]) diags onl
    | 12 :: r =>
        let r2 := scanWhitespaceLoop r
        lexTrivia dm r2 (tb ++ [⟨.Whitespace, lexemeOf rest r2⟩]) diags onl
    | 47 :: 47 :: r =>
        let scanned := scanLineCommentLoop dm r diags
        lexTrivia dm scanned.1 (tb ++ [⟨.LineComment, lexemeOf rest scanned.1⟩]) scanned.2 onl
    | 47 :: 42 :: r =>
        if (scanBlockCommentLoop dm r diags false).2.2 then
          (true, (scanBlockCommentLoop dm r diags false).1,
           tb ++ [⟨.BlockComment, lexemeOf rest (scanBlockCommentLoop dm r diags false).1⟩],
           (scanBlockCommentLoop dm r diags false).2.1, onl)
        else
          lexTrivia dm (scanBlockCommentLoop dm r diags false).1
            (tb ++ [⟨.BlockComment, lexemeOf rest (scanBlockCommentLoop dm r diags false).1⟩])
            (scanBlockCommentLoop dm r diags false).2.1 onl
    | 13 :: 10 :: r =>
        if dm then (true, r, tb ++ [⟨.EndOfLine, [13, 10]⟩], diags, true)
        else lexTrivia dm r (tb ++ [⟨.EndOfLine, [13, 10]⟩]) diags true
    | 13 :: r =>
        if dm then (true, r, tb ++ [⟨.EndOfLine, [13]⟩], diags, true)
        else lexTrivia dm r (tb ++ [⟨.EndOfLine, [13]⟩]) diags true
    | 10 :: r =>
        if dm then (true, r, tb ++ [⟨.EndOfLine, [10]⟩], diags, true)
        else lexTrivia dm r (tb ++ [⟨.EndOfLine, [10]⟩]) diags true
    | 92 :: 13 :: 10 :: r =>
        if dm then lexTrivia dm r (tb ++ [⟨.LineContinuation, [92, 13, 10]⟩]) diags true
        else (false, 92 :: 13 :: 10 :: r, tb, diags, onl)
    | 92 :: 13 :: r =>
        if dm then lexTrivia dm r (tb ++ [⟨.LineContinuation, [92, 13]⟩]) diags true
        else (false, 92 :: 13 :: r, tb, diags, onl)
    | 92 :: 10 :: r =>
        if dm then lexTrivia dm r (tb ++ [⟨.LineContinuation, [92, 10]⟩]) diags true
        else (false, 92 :: 10 :: r, tb, diags, onl)
    | 0 :: r => (dm, 0 :: r, tb, diags, onl)
    | [] => (dm, [], tb, diags, onl)
    | r => (false, r, tb, diags, onl)
termination_by rest _ _ _ => rest.length
decreasing_by
  all_goals simp_wf
  all_goals first
    | omega
    | apply scanWhitespaceLoop_length_lt
    | apply scanLineCommentLoop_length_lt
    | apply scanBlockCommentLoop_length_lt

/-- `Lexer::lexToken` (lines 225-521): the main token switch.  `rest0` is the
suffix at the token start (the mark); returns the kind, the new position and
the diagnostics. -/
def lexToken (tables : LexerTables) (dm : Bool) (onNewLine : Bool)
    (rest0 : List Nat) (diags : List DiagCode) :
    TokenKind × List Nat × List DiagCode :=
  let c := rest0.headD 0
  let r := rest0.drop 1
  if c == 0 then
    -- back up one character so that repeated calls keep producing EndOfFile
    if 1 < rest0.length then (.Unknown, r, diags ++ [DiagCode.EmbeddedNull])
    else if dm then (.EndOfDirective, rest0, diags)
    else (.EndOfFile, rest0, diags)
  else if c == 33 then  -- !
    if r.headD 0 == 61 then
      if (r.drop 1).headD 0 == 61 then (.ExclamationDoubleEquals, r.drop 2, diags)
      else if (r.drop 1).headD 0 == 63 then (.ExclamationEqualsQuestion, r.drop 2, diags)
      else (.ExclamationEquals, r.drop 1, diags)
    else (.Exclamation, r, diags)
  else if c == 34 then  -- double quote
    let out := lexStringLiteralLoop r [] diags
    (.StringLiteral, out.1, out.2.2)
  else if c == 35 then  -- #
    if r.headD 0 == 35 then (.DoubleHash, r.drop 1, diags)
    else if r.headD 0 == 45 then
      if r.getD 1 0 == 35 then (.HashMinusHash, r.drop 2, diags)
      else (.Hash, r, diags)
    else if r.headD 0 == 61 then
      if r.getD 1 0 == 35 then (.HashEqualsHash, r.drop 2, diags)
      else (.Hash, r, diags)
    else (.Hash, r, diags)
  else if c == 36 then lexDollarSign tables rest0 r diags  -- dollar
  else if c == 37 then  -- percent
    if r.headD 0 == 61 then (.PercentEqual, r.drop 1, diags)
    else (.Percent, r, diags)
  else if c == 38 then  -- &
    if r.headD 0 == 38 then
      if r.getD 1 0 == 38 then (.TripleAnd, r.drop 2, diags)
      else (.DoubleAnd, r.drop 1, diags)
    else if r.headD 0 == 61 then (.AndEqual, r.drop 1, diags)
    else (.And, r, diags)
  else if c == 39 then  -- apostrophe
    if r.headD 0 == 123 then (.ApostropheOpenBrace, r.drop 1, diags)
    else lexApostrophe r diags
  else if c == 40 then  -- (
    if r.headD 0 != 42 then (.OpenParenthesis, r, diags)
    else if r.getD 1 0 == 41 then (.OpenParenthesisStarCloseParenthesis, r.drop 2, diags)
    else (.OpenParenthesisStar, r.drop 1, diags)
  else if c == 41 then (.CloseParenthesis, r, diags)
  else if c == 42 then  -- *
    if r.headD 0 == 42 then (.DoubleStar, r.drop 1, diags)
    else if r.headD 0 == 61 then (.StarEqual, r.drop 1, diags)
    else if r.headD 0 == 62 then (.StarArrow, r.drop 1, diags)
    else if r.headD 0 == 41 then (.StarCloseParenthesis, r.drop 1, diags)
    else if r.headD 0 == 58 then
      if r.getD 1 0 == 58 && r.getD 2 0 == 42 then (.StarDoubleColonStar, r.drop 3, diags)
      else (.Star, r, diags)
    else (.Star, r, diags)
  else if c == 43 then  -- +
    if r.headD 0 == 43 then (.DoublePlus, r.drop 1, diags)
    else if r.headD 0 == 61 then (.PlusEqual, r.drop 1, diags)
    else if r.headD 0 == 58 then (.PlusColon, r.drop 1, diags)
    else (.Plus, r, diags)
  else if c == 44 then (.Comma, r, diags)
  else if c == 45 then  -- minus
    if r.headD 0 == 45 then (.DoubleMinus, r.drop 1, diags)
    else if r.headD 0 == 61 then (.MinusEqual, r.drop 1, diags)
    else if r.headD 0 == 58 then (.MinusColon, r.drop 1, diags)
    else if r.headD 0 == 62 then
      if r.getD 1 0 == 62 then (.MinusDoubleArrow, r.drop 2, diags)
      else (.MinusArrow, r.drop 1, diags)
    else (.Minus, r, diags)
  else if c == 46 then  -- .
    if r.headD 0 == 42 then (.DotStar, r.drop 1, diags)
    else (.Dot, r, diags)
  else if c == 47 then  -- /
    if r.headD 0 == 61 then (.SlashEqual, r.drop 1, diags)
    else (.Slash, r, diags)
  else if 48 ≤ c && c ≤ 57 then
    -- back up so that lexNumericLiteral can look at this digit again
    lexNumericLiteral rest0 diags
  else if c == 58 then  -- :
    if r.headD 0 == 61 then (.ColonEquals, r.drop 1, diags)
    else if r.headD 0 == 47 then (.ColonSlash, r.drop 1, diags)
    else if r.headD 0 == 58 then (.DoubleColon, r.drop 1, diags)
    else (.Colon, r, diags)
  else if c == 59 then (.Semicolon, r, diags)
  else if c == 60 then  -- <
    if r.headD 0 == 61 then (.LessThanEquals, r.drop 1, diags)
    else if r.headD 0 == 45 then
      if r.getD 1 0 == 62 then (.LessThanMinusArrow, r.drop 2, diags)
      else (.LessThan, r, diags)
    else if r.headD 0 == 60 then
      if r.getD 1 0 == 60 then
        if r.getD 2 0 == 61 then (.TripleLeftShiftEqual, r.drop 3, diags)
        else (.TripleLeftShift, r.drop 2, diags)
      else if r.getD 1 0 == 61 then (.LeftShiftEqual, r.drop 2, diags)
      else (.LeftShift, r.drop 1, diags)
    else (.LessThan, r, diags)
  else if c == 61 then  -- =
    if r.headD 0 == 61 then
      if r.getD 1 0 == 61 then (.TripleEquals, r.drop 2, diags)
      else if r.getD 1 0 == 63 then (.DoubleEqualsQuestion, r.drop 2, diags)
      else (.DoubleEquals, r.drop 1, diags)
    else if r.headD 0 == 62 then (.EqualsArrow, r.drop 1, diags)
    else (.Equals, r, diags)
  else if c == 62 then  -- >
    if r.headD 0 == 61 then (.GreaterThanEquals, r.drop 1, diags)
    else if r.headD 0 == 62 then
      if r.getD 1 0 == 62 then
        if r.getD 2 0 == 61 then (.TripleRightShiftEqual, r.drop 3, diags)
        else (.TripleRightShift, r.drop 2, diags)
      else if r.getD 1 0 == 61 then (.RightShiftEqual, r.drop 2, diags)
      else (.RightShift, r.drop 1, diags)
    else (.GreaterThan, r, diags)
  else if c == 63 then (.Question, r, diags)
  else if c == 64 then  -- at sign
    if r.headD 0 == 64 then (.DoubleAt, r.drop 1, diags)
    else if r.headD 0 == 42 then (.AtStar, r.drop 1, diags)
    else (.At, r, diags)
  else if (65 ≤ c && c ≤ 90) || (97 ≤ c && c ≤ 122) || c == 95 then
    let r2 := scanIdentifierLoop r
    match tables.keywordLookup (lexemeOf rest0 r2) with
    | some kind => (kind, r2, diags)
    | none => (.Identifier, r2, diags)
  else if c == 91 then (.OpenBracket, r, diags)
  else if c == 92 then lexEscapeSequence r diags  -- backslash
  else if c == 93 then (.CloseBracket, r, diags)
  else if c == 94 then  -- caret
    if r.headD 0 == 126 then (.XorTilde, r.drop 1, diags)
    else if r.headD 0 == 61 then (.XorEqual, r.drop 1, diags)
    else (.Xor, r, diags)
  else if c == 96 then  -- backtick
    if r.headD 0 == 34 then (.MacroQuote, r.drop 1, diags)
    else if r.headD 0 == 96 then (.MacroPaste, r.drop 1, diags)
    else if r.headD 0 == 92 then
      if r.getD 1 0 == 96 && r.getD 2 0 == 34 then (.MacroEscapedQuote, r.drop 3, diags)
      else lexDirective tables rest0 r diags onNewLine
    else lexDirective tables rest0 r diags onNewLine
  else if c == 123 then (.OpenBrace, r, diags)
  else if c == 124 then  -- |
    if r.headD 0 == 124 then (.DoubleOr, r.drop 1, diags)
    else if r.headD 0 == 45 then
      if r.getD 1 0 == 62 then
        if r.getD 2 0 == 62 then (.OrMinusDoubleArrow, r.drop 3, diags)
        else (.OrMinusArrow, r.drop 2, diags)
      else (.Or, r, diags)
    else if r.headD 0 == 61 then
      if r.getD 1 0 == 62 then (.OrEqualsArrow, r.drop 2, diags)
      else (.OrEqual, r.drop 1, diags)
    else (.Or, r, diags)
  else if c == 125 then (.CloseBrace, r, diags)
  else if c == 126 then  -- tilde
    if r.headD 0 == 38 then (.TildeAnd, r.drop 1, diags)
    else if r.headD 0 == 124 then (.TildeOr, r.drop 1, diags)
    else if r.headD 0 == 94 then (.TildeXor, r.drop 1, diags)
    else (.Tilde, r, diags)
  else if isASCIIB c then (.Unknown, r, diags ++ [DiagCode.NonPrintableChar])
  else (.Unknown, r.drop (utf8SeqBytes c), diags ++ [DiagCode.UTF8Char])

/-- `Lexer::lexIncludeFileName` (lines 666-715). -/
def lexIncludeFileName (tables : LexerTables) (s : LexerM) : TokenM × LexerM :=
  let rest0 := s.rest
  let hasWs := isHorizontalWhitespaceB (rest0.headD 0)
  let rest1 := if hasWs then scanWhitespaceLoop rest0 else rest0
  let trivia : List TriviaM :=
    if hasWs then [⟨.Whitespace, lexemeOf rest0 rest1⟩] else []
  let delim := rest1.headD 0
  if delim == 96 then
    -- macro file name: the directive token carries the include file
    let r := lexDirective tables rest1 (rest1.drop 1) s.diags s.onNewLine
    (⟨r.1, lexemeOf rest1 r.2.1, trivia⟩,
     ⟨r.2.1, r.2.2, s.errorCount + (r.2.2.length - s.diags.length), s.onNewLine, s.options⟩)
  else if delim != 34 && delim != 60 then
    (⟨.IncludeFileName, [], trivia⟩,
     ⟨rest1, s.diags ++ [DiagCode.ExpectedIncludeFileName], s.errorCount + 1,
      s.onNewLine, s.options⟩)
  else
    let d2 := if delim == 60 then 62 else delim
    let out := includeFileNameLoop d2 (rest1.drop 1) s.diags
    (⟨.IncludeFileName, lexemeOf rest1 out.1, trivia⟩,
     ⟨out.1, out.2, s.errorCount + (out.2.length - s.diags.length),
      s.onNewLine, s.options⟩)

/-- The shared body of `Lexer::lex` (lines 197-223) for the normal and
directive modes (`dm` is `directiveMode`): trivia, then one token; in
directive mode the trivia scan may force an immediate `EndOfDirective`; a
non-`EndOfFile` token lexed after more than `maxErrors` diagnostics is
replaced by `EndOfFile` with `TooManyLexerErrors` and the abandoned text as
`DisabledText` trivia. -/
def lexCommon (tables : LexerTables) (s : LexerM) (dm : Bool) : TokenM × LexerM :=
  let t := lexTrivia dm s.rest [] s.diags s.onNewLine
  let rest1 := t.2.1
  let tb := t.2.2.1
  let diags1 := t.2.2.2.1
  let onl1 := t.2.2.2.2
  if t.1 then
    (⟨.EndOfDirective, [], tb⟩,
     ⟨rest1, diags1, s.errorCount + (diags1.length - s.diags.length), onl1, s.options⟩)
  else
    let r := lexToken tables dm onl1 rest1 diags1
    let kind := r.1
    let rest2 := r.2.1
    let diags2 := r.2.2
    let rawText := lexemeOf rest1 rest2
    if kind != .EndOfFile && diags2.length > s.options.maxErrors then
      (⟨.EndOfFile, rawText, tb ++ [⟨.DisabledText, rest1.take (rest1.length - 1)⟩]⟩,
       ⟨rest1.drop (rest1.length - 1), diags2 ++ [DiagCode.TooManyLexerErrors],
        s.errorCount + (diags2.length + 1 - s.diags.length), false, s.options⟩)
    else
      (⟨kind, rawText, tb⟩,
       ⟨rest2, diags2, s.errorCount + (diags2.length - s.diags.length), false, s.options⟩)

/-- `Lexer::lex` (lines 193-223): dispatch on the mode
(`directiveMode = (mode == LexerMode::Directive)`). -/
def lex (tables : LexerTables) (s : LexerM) (mode : LexerMode) : TokenM × LexerM :=
  match mode with
  | .IncludeFileName => lexIncludeFileName tables s
  | .Normal => lexCommon tables s false
  | .Directive => lexCommon tables s true

/-- With `directiveMode = false`, the block-comment scan leaves the
end-of-directive request unchanged. -/
theorem scanBlockCommentLoop_eod (l : List Nat) (d : List DiagCode) (e : Bool) :
    (scanBlockCommentLoop false l d e).2.2 = e := by
  have key : ∀ (n : Nat) (l : List Nat) (d : List DiagCode) (e : Bool), l.length ≤ n →
      (scanBlockCommentLoop false l d e).2.2 = e := by
    intro n
    induction n with
    | zero =>
      intro l d e hl
      have hz : l = [] := List.eq_nil_of_length_eq_zero (Nat.le_zero.mp hl)
      subst hz
      rw [scanBlockCommentLoop]
    | succ n ih =>
      intro l d e hl
      match l with
      | [] => rw [scanBlockCommentLoop]
      | c :: r =>
        simp only [List.length_cons] at hl
        have hr : r.length ≤ n := by omega
        have hrd : (r.drop 1).length ≤ n := by simp ; omega
        rw [scanBlockCommentLoop]
        repeat' split
        all_goals first
          | rfl
          | exact ih _ _ _ hr
          | exact ih _ _ _ hrd
          | simp_all
  exact key l.length l d e (le_refl _)

/-- In normal (non-directive) mode, `lexTrivia` never requests an immediate
`EndOfDirective`. -/
theorem lexTrivia_normal_not_eod (rest : List Nat) (tb : List TriviaM)
    (diags : List DiagCode) (onl : Bool) :
    (lexTrivia false rest tb diags onl).1 = false := by
  refine lexTrivia.induct false
    (fun rest tb diags onl => (lexTrivia false rest tb diags onl).1 = false)
    ?_ ?_ ?_ ?_ ?_ ?_ ?_ ?_ ?_ ?_ ?_ ?_ ?_ ?_ ?_ ?_ ?_ ?_ ?_ ?_ ?_ ?_ rest tb diags onl
  all_goals intros
  all_goals try contradiction
  all_goals try (simp only [scanBlockCommentLoop_eod] at *; contradiction)
  all_goals try (rw [lexTrivia]; try first | assumption | rfl)
  all_goals try (rw [scanBlockCommentLoop_eod]; first | assumption | rfl)
  all_goals assumption

/-- A normal-mode `lex` at the final NUL of the buffer: an `EndOfFile` token
with no text and no trivia, and the state only resets `onNewLine`. -/
theorem lex_at_end (tables : LexerTables) (s : LexerM) (h : s.rest = [0]) :
    lex tables s .Normal =
      (⟨.EndOfFile, [], []⟩, ⟨[0], s.diags, s.errorCount, false, s.options⟩) := by
  obtain ⟨rest, diags, ec, onl, opts⟩ := s
  simp only at h
  subst h
  simp [lex, lexCommon, lexTrivia, lexToken, lexemeOf]

/-- C10: End-of-file is absorbing: with the position at the final NUL of the
buffer, a normal-mode `lex` returns an `EndOfFile` token with no text and no
trivia, the position does not advance, the diagnostics and the error count
are unchanged, and every further normal-mode call returns `EndOfFile`
again. -/
theorem lex_eof_absorbing (tables : LexerTables) (s : LexerM)
    (h : s.rest = [0]) :
    (lex tables s .Normal).1.kind = TokenKind.EndOfFile ∧
    (lex tables s .Normal).1.rawText = [] ∧
    (lex tables s .Normal).1.trivia = [] ∧
    (lex tables s .Normal).2.rest = [0] ∧
    (lex tables s .Normal).2.diags = s.diags ∧
    (lex tables s .Normal).2.errorCount = s.errorCount ∧
    (∀ n, (lex tables ((fun st => (lex tables st .Normal).2)^[n] s) .Normal).1.kind
        = TokenKind.EndOfFile) := by
  have step := lex_at_end tables s h
  have hrest : ∀ m, ((fun st => (lex tables st .Normal).2)^[m] s).rest = [0] := by
    intro m
    induction m with
    | zero => simpa using h
    | succ m ihm =>
      rw [Function.iterate_succ_apply']
      have := lex_at_end tables _ ihm
      simp [this]
  refine ⟨by rw [step], by rw [step], by rw [step], by rw [step], by rw [step],
    by rw [step], ?_⟩
  intro n
  rw [lex_at_end tables _ (hrest n)]

/-- Witness for the end-of-file absorption at a concrete lexer state. -/
theorem lex_eof_absorbing_witness :
    (lex ⟨fun _ => none, fun _ => TokenKind.Unknown, fun _ => DirectiveKindM.UnknownDirectiveKind⟩
        ⟨[0], [DiagCode.EmbeddedNull], 1, true, ⟨4⟩⟩ .Normal).1.kind = TokenKind.EndOfFile ∧
    (lex ⟨fun _ => none, fun _ => TokenKind.Unknown, fun _ => DirectiveKindM.UnknownDirectiveKind⟩
        ⟨[0], [DiagCode.EmbeddedNull], 1, true, ⟨4⟩⟩ .Normal).1.rawText = [] ∧
    (lex ⟨fun _ => none, fun _ => TokenKind.Unknown, fun _ => DirectiveKindM.UnknownDirectiveKind⟩
        ⟨[0], [DiagCode.EmbeddedNull], 1, true, ⟨4⟩⟩ .Normal).1.trivia = [] ∧
    (lex ⟨fun _ => none, fun _ => TokenKind.Unknown, fun _ => DirectiveKindM.UnknownDirectiveKind⟩
        ⟨[0], [DiagCode.EmbeddedNull], 1, true, ⟨4⟩⟩ .Normal).2.rest = [0] ∧
    (lex ⟨fun _ => none, fun _ => TokenKind.Unknown, fun _ => DirectiveKindM.UnknownDirectiveKind⟩
        ⟨[0], [DiagCode.EmbeddedNull], 1, true, ⟨4⟩⟩ .Normal).2.diags =
      (⟨[0], [DiagCode.EmbeddedNull], 1, true, ⟨4⟩⟩ : LexerM).diags ∧
    (lex ⟨fun _ => none, fun _ => TokenKind.Unknown, fun _ => DirectiveKindM.UnknownDirectiveKind⟩
        ⟨[0], [DiagCode.EmbeddedNull], 1, true, ⟨4⟩⟩ .Normal).2.errorCount =
      (⟨[0], [DiagCode.EmbeddedNull], 1, true, ⟨4⟩⟩ : LexerM).errorCount ∧
    (∀ n, (lex ⟨fun _ => none, fun _ => TokenKind.Unknown, fun _ => DirectiveKindM.UnknownDirectiveKind⟩
        ((fun st => (lex ⟨fun _ => none, fun _ => TokenKind.Unknown, fun _ => DirectiveKindM.UnknownDirectiveKind⟩
            st .Normal).2)^[n]
          ⟨[0], [DiagCode.EmbeddedNull], 1, true, ⟨4⟩⟩) .Normal).1.kind = TokenKind.EndOfFile) :=
  lex_eof_absorbing _ _ (by rfl)

/-- C9 (amended): the error cap in normal mode.  If the token scanned after
the leading trivia is not `EndOfFile` and the diagnostic count then exceeds
`maxErrors`, the `lex` call returns an `EndOfFile` token instead, appends
`TooManyLexerErrors` to the diagnostics, attaches the abandoned text as
`DisabledText` trivia, and repositions the lexer at the final byte. -/
theorem lex_error_cap (tables : LexerTables) (s : LexerM)
    (t : Bool × List Nat × List TriviaM × List DiagCode × Bool)
    (r : TokenKind × List Nat × List DiagCode)
    (ht : lexTrivia false s.rest [] s.diags s.onNewLine = t)
    (hr : lexToken tables false t.2.2.2.2 t.2.1 t.2.2.2.1 = r)
    (hk : r.1 ≠ TokenKind.EndOfFile)
    (hn : s.options.maxErrors < r.2.2.length) :
    (lex tables s .Normal).1.kind = TokenKind.EndOfFile ∧
    (lex tables s .Normal).2.diags = r.2.2 ++ [DiagCode.TooManyLexerErrors] ∧
    (lex tables s .Normal).1.trivia =
      t.2.2.1 ++ [⟨.DisabledText, t.2.1.take (t.2.1.length - 1)⟩] ∧
    (lex tables s .Normal).2.rest = t.2.1.drop (t.2.1.length - 1) := by
  have heod : t.1 = false := by
    rw [← ht]; exact lexTrivia_normal_not_eod _ _ _ _
  simp only [lex, lexCommon, ht, heod, hr]
  simp [hk, hn]

/-- Witness for the error cap: lexing a comma after one earlier diagnostic
with `maxErrors = 0` yields `EndOfFile` plus `TooManyLexerErrors`. -/
theorem lex_error_cap_witness :
    (lex ⟨fun _ => none, fun _ => TokenKind.Unknown, fun _ => DirectiveKindM.UnknownDirectiveKind⟩
        ⟨[44, 0], [DiagCode.EmbeddedNull], 1, false, ⟨0⟩⟩ .Normal).1.kind = TokenKind.EndOfFile ∧
    (lex ⟨fun _ => none, fun _ => TokenKind.Unknown, fun _ => DirectiveKindM.UnknownDirectiveKind⟩
        ⟨[44, 0], [DiagCode.EmbeddedNull], 1, false, ⟨0⟩⟩ .Normal).2.diags =
      [DiagCode.EmbeddedNull, DiagCode.TooManyLexerErrors] ∧
    (lex ⟨fun _ => none, fun _ => TokenKind.Unknown, fun _ => DirectiveKindM.UnknownDirectiveKind⟩
        ⟨[44, 0], [DiagCode.EmbeddedNull], 1, false, ⟨0⟩⟩ .Normal).1.trivia =
      [⟨TriviaKind.DisabledText, [44]⟩] ∧
    (lex ⟨fun _ => none, fun _ => TokenKind.Unknown, fun _ => DirectiveKindM.UnknownDirectiveKind⟩
        ⟨[44, 0], [DiagCode.EmbeddedNull], 1, false, ⟨0⟩⟩ .Normal).2.rest = [0] := by
  have h := lex_error_cap
    ⟨fun _ => none, fun _ => TokenKind.Unknown, fun _ => DirectiveKindM.UnknownDirectiveKind⟩
    ⟨[44, 0], [DiagCode.EmbeddedNull], 1, false, ⟨0⟩⟩
    (false, [44, 0], [], [DiagCode.EmbeddedNull], false)
    (TokenKind.Comma, [0], [DiagCode.EmbeddedNull])
    (by rw [lexTrivia] <;> simp)
    (by rfl)
    (by decide)
    (by decide)
  simpa using h

/-- C9 counterexample: in directive mode, with the diagnostic count already
past `maxErrors`, a `lex` call whose leading trivia ends the directive
returns an `EndOfDirective` token — not `EndOfFile` — and emits no
`TooManyLexerErrors`: the error cap is bypassed. -/
theorem lex_error_cap_counterexample :
    (0 : Nat) <
      ([DiagCode.EmbeddedNull].length : Nat) ∧
    (lex ⟨fun _ => none, fun _ => TokenKind.Unknown, fun _ => DirectiveKindM.UnknownDirectiveKind⟩
        ⟨[10, 0], [DiagCode.EmbeddedNull], 1, false, ⟨0⟩⟩ .Directive).1.kind =
      TokenKind.EndOfDirective ∧
    TokenKind.EndOfDirective ≠ TokenKind.EndOfFile ∧
    (lex ⟨fun _ => none, fun _ => TokenKind.Unknown, fun _ => DirectiveKindM.UnknownDirectiveKind⟩
        ⟨[10, 0], [DiagCode.EmbeddedNull], 1, false, ⟨0⟩⟩ .Directive).2.diags =
      [DiagCode.EmbeddedNull] := by
  refine ⟨by decide, ?_, by decide, ?_⟩ <;>
    simp [lex, lexCommon, lexTrivia]

end Slang
